import Mathlib

/-!
# CameraAutoBalance: auto-exposure controller

A shallow embedding of `autorally_core/src/CameraAutoBalance/CameraAutoBalance.cpp`.

Numeric conventions of the embedding.

* A C++ `double` is an exact rational number (`ℚ`): rounding, overflow to an
  infinity and signed zeros are not represented.  The one non-finite value the
  code can produce on its own, the quotient `0.0 / 0.0` of `MSV` on an empty
  histogram, is represented by `none` in `Option ℚ`; every comparison with it is
  false, as for a NaN.
* A C++ `int` / `u_int` is an unbounded integer: the development is about frames
  whose region of interest is small enough for every `int` expression of the
  source to stay inside the 32-bit range.
* A `uchar` is a `Fin 256`.
* The actuator `cam_adjuster_` is the chronological list of the commands pushed
  to it.
* The diagnostic publishers (`roi_pub_`, `hist_pub_`, `plotHistogram`, the log
  lines) have no effect on the controller state and are left out.
-/

namespace autorally_core

/-! ## Data model -/

/-- Integer rectangle, as `cv::Rect`. -/
structure Rect where
  x : ℤ
  y : ℤ
  width : ℤ
  height : ℤ
  deriving DecidableEq, Repr

/-- Decoded frame, as the `cv::Mat` behind a `cv_bridge::CvImageConstPtr`:
`ptr i j` is the byte `image.ptr<uchar>(i)[j]`.  The function is total; reads
with `i` or `j` outside the buffer are the out-of-bounds reads of the source. -/
structure Image where
  rows : ℤ
  cols : ℤ
  ptr : ℤ → ℤ → Fin 256

/-- Dynamic-reconfigure request, the fields of `camera_auto_balance_paramsConfig`
read by `configCallback`. -/
structure camera_auto_balance_paramsConfig where
  roi_x_top_left : ℤ
  roi_y_top_left : ℤ
  roi_x_bottom_right : ℤ
  roi_y_bottom_right : ℤ
  msvGrayReference : ℚ
  show_roi_and_hist : Bool
  kShutter : ℚ
  kGain : ℚ

/-- Command received by the camera actuator. -/
inductive CamCommand where
  | setSerial (serial : ℤ)
  | connect
  | setShutter (value : ℚ)
  | setGain (value : ℚ)
  deriving DecidableEq, Repr

/-- Member variables of the nodelet class `CameraAutoBalance`. -/
structure CameraAutoBalance where
  frame_counter_ : ℤ
  calibration_step_ : ℤ
  camera_serial_number_ : ℤ
  min_shutter_ : ℚ
  max_shutter_ : ℚ
  min_gain_ : ℚ
  max_gain_ : ℚ
  roi_x_top_left_ : ℤ
  roi_y_top_left_ : ℤ
  roi_x_bottom_right_ : ℤ
  roi_y_bottom_right_ : ℤ
  roi_ : Rect
  msv_reference_ : ℚ
  show_roi_and_hist_ : Bool
  k_shutter_ : ℚ
  k_gain_ : ℚ
  u_shutter_ : ℚ
  u_gain_ : ℚ
  msv_error_ : Option ℚ
  hist_ : List ℤ
  cam_adjuster_ : List CamCommand

/-- Startup parameters read once by `onInit` from the parameter server. -/
structure StartupParams where
  minShutter : ℚ
  maxShutter : ℚ
  minGain : ℚ
  maxGain : ℚ
  calibrationStep : ℤ
  cameraSerialNumber : ℤ

/-! ## Constants assigned once in `onInit` -/

/-- Value of `hist_size_`. -/
def hist_size_ : ℕ := 256

/-- Value of `msv_error_tolerance_`. -/
def msv_error_tolerance_ : ℚ := 3

/-- Value of `epsilon_shutter_`, the literal `1e-3`. -/
def epsilon_shutter_ : ℚ := 1 / 1000

/-- Value of `epsilon_gain_`, the literal `1e-1`. -/
def epsilon_gain_ : ℚ := 1 / 10

/-! ## `saturate` -/

/-- Clamp of `x`: `if (x < min) x = min; else if (x > max) x = max; return x;`. -/
def saturate (x min max : ℚ) : ℚ :=
  if x < min then min else if x > max then max else x

/-! ## `configCallback` and `cameraParametersInitialization` -/

/-- Reconfiguration: the four corners are stored, a bottom-right coordinate that
is not beyond the top-left one is forced to top-left + 1, the rectangle is
rebuilt and the reference, the diagnostics toggle and the two gains are stored. -/
def CameraAutoBalance.configCallback (self : CameraAutoBalance)
    (config : camera_auto_balance_paramsConfig) : CameraAutoBalance :=
  let tlx := config.roi_x_top_left
  let tly := config.roi_y_top_left
  let brx := if config.roi_x_bottom_right - tlx ≤ 0 then tlx + 1 else config.roi_x_bottom_right
  let bry := if config.roi_y_bottom_right - tly ≤ 0 then tly + 1 else config.roi_y_bottom_right
  { self with
    roi_x_top_left_ := tlx
    roi_y_top_left_ := tly
    roi_x_bottom_right_ := brx
    roi_y_bottom_right_ := bry
    roi_ := ⟨tlx, tly, brx - tlx, bry - tly⟩
    msv_reference_ := config.msvGrayReference
    show_roi_and_hist_ := config.show_roi_and_hist
    k_shutter_ := config.kShutter
    k_gain_ := config.kGain }

/-- Start values of the two actuators: the minima, each pushed to the camera. -/
def CameraAutoBalance.cameraParametersInitialization (self : CameraAutoBalance) :
    CameraAutoBalance :=
  { self with
    u_shutter_ := self.min_shutter_
    u_gain_ := self.min_gain_
    cam_adjuster_ := self.cam_adjuster_ ++
      [CamCommand.setShutter self.min_shutter_, CamCommand.setGain self.min_gain_] }

/-! ## Exposure controller -/

/-- Body of `autoExposureControl` after `double msv = MSV(cv_ptr);`.  A NaN
`msv` makes `msv_error_` NaN, both comparisons false and nothing else change. -/
def CameraAutoBalance.controlStep (self : CameraAutoBalance) (msv : Option ℚ) :
    CameraAutoBalance :=
  match msv with
  | none => { self with msv_error_ := none }
  | some m =>
    let e := self.msv_reference_ - m
    let s := { self with msv_error_ := some e }
    if e > msv_error_tolerance_ then
      if |s.max_shutter_ - s.u_shutter_| < epsilon_shutter_ then
        let g := saturate (s.u_gain_ * (1 + s.k_gain_ * e)) s.min_gain_ s.max_gain_
        { s with u_gain_ := g, cam_adjuster_ := s.cam_adjuster_ ++ [CamCommand.setGain g] }
      else
        let u := saturate (s.u_shutter_ * (1 + s.k_shutter_ * e)) s.min_shutter_ s.max_shutter_
        { s with u_shutter_ := u, cam_adjuster_ := s.cam_adjuster_ ++ [CamCommand.setShutter u] }
    else if e < -msv_error_tolerance_ then
      if |s.min_gain_ - s.u_gain_| < epsilon_gain_ then
        let u := saturate (s.u_shutter_ * (1 + s.k_shutter_ * e)) s.min_shutter_ s.max_shutter_
        { s with u_shutter_ := u, cam_adjuster_ := s.cam_adjuster_ ++ [CamCommand.setShutter u] }
      else
        let g := saturate (s.u_gain_ * (1 + s.k_gain_ * e)) s.min_gain_ s.max_gain_
        { s with u_gain_ := g, cam_adjuster_ := s.cam_adjuster_ ++ [CamCommand.setGain g] }
    else s

/-! ## Histogram engine -/

/-- Conversion `(int)` of a `double`: truncation towards zero. -/
def castInt (q : ℚ) : ℤ :=
  if 0 ≤ q then ⌊q⌋ else ⌈q⌉

/-- Luminance bucket of one pixel whose bytes are `p[j]`, `p[j+1]`, `p[j+2]`:
`(int)(0.114*p[j] + 0.587*p[j+1] + 0.299*p[j+2])`. -/
def luminance (b g r : Fin 256) : ℤ :=
  castInt ((114 / 1000 : ℚ) * (b.val : ℚ) + (587 / 1000 : ℚ) * (g.val : ℚ)
    + (299 / 1000 : ℚ) * (r.val : ℚ))

/-- Increment `++hist[k]` at a natural index; an index past the end leaves the
vector as it is. -/
def bump : List ℤ → ℕ → List ℤ
  | [], _ => []
  | c :: cs, 0 => (c + 1) :: cs
  | c :: cs, n + 1 => c :: bump cs n

/-- Increment `++hist[luminance]`; a negative index leaves the vector as it is. -/
def incrementBucket (hist : List ℤ) (k : ℤ) : List ℤ :=
  if 0 ≤ k then bump hist k.toNat else hist

/-- Values taken by the counter of `for (i = start; i < stop; i += step)`, in
order; the first argument bounds the number of iterations. -/
def loopIndices (stop step : ℤ) : ℕ → ℤ → List ℤ
  | 0, _ => []
  | fuel + 1, i => if i < stop then i :: loopIndices stop step fuel (i + step) else []

/-- Rows visited by `histogram`: `for (i = roi.y; i < maxI; i += decimation_rate)`.
With a stride of at least one the loop runs at most `maxI - roi.y` times. -/
def sampledRows (roi : Rect) (decimation_rate : ℕ) : List ℤ :=
  loopIndices (roi.y + roi.height) decimation_rate
    ((roi.y + roi.height) - roi.y).toNat roi.y

/-- Byte offsets visited in each row by `histogram`:
`for (j = 3*roi.x; j < maxJ; j += 3*decimation_rate)`. -/
def sampledOffsets (roi : Rect) (decimation_rate : ℕ) : List ℤ :=
  loopIndices (3 * (roi.x + roi.width)) (3 * decimation_rate)
    (3 * (roi.x + roi.width) - 3 * roi.x).toNat (3 * roi.x)

/-- Decimated luminance histogram of the region `roi` of `img`: the vector is
reset to `hist_size_` zeros, then one bucket is incremented per sampled pixel.
The two loops of the source terminate for a stride of at least one (`MSV` passes
5); with stride 0 they do not, and the model is not meant for that input. -/
def histogram (img : Image) (roi : Rect) (decimation_rate : ℕ) : List ℤ :=
  (sampledRows roi decimation_rate).foldl
    (fun hist i =>
      (sampledOffsets roi decimation_rate).foldl
        (fun hist j =>
          incrementBucket hist (luminance (img.ptr i j) (img.ptr i (j + 1)) (img.ptr i (j + 2))))
        hist)
    (List.replicate hist_size_ 0)

/-! ## Brightness metric -/

/-- Accumulation loop of `MSV`: `msv += (i+1)*(*it); sum += (*it);` over the
histogram, `i` counting from the given index; the pair is `(msv, sum)`. -/
def msvLoop : List ℤ → ℤ → ℚ × ℚ → ℚ × ℚ
  | [], _, acc => acc
  | c :: rest, i, acc => msvLoop rest (i + 1) (acc.1 + (((i + 1) * c : ℤ) : ℚ), acc.2 + (c : ℚ))

/-- Reduction of a histogram to the mean sample value, `msv / sum`.  The counts
of a histogram are not negative, so `sum = 0` only with `msv = 0`, and the
quotient is then `0.0 / 0.0`, a NaN, represented by `none`. -/
def msvReduce (hist : List ℤ) : Option ℚ :=
  let acc := msvLoop hist 0 (0, 0)
  if acc.2 = 0 then none else some (acc.1 / acc.2)

/-- Method `MSV`: rebuilds `hist_` over `roi_` with stride 5 and reduces it. -/
def CameraAutoBalance.MSV (self : CameraAutoBalance) (img : Image) :
    CameraAutoBalance × Option ℚ :=
  let hist := histogram img self.roi_ 5
  ({ self with hist_ := hist }, msvReduce hist)

/-- Method `autoExposureControl`: one controller step on a decoded frame. -/
def CameraAutoBalance.autoExposureControl (self : CameraAutoBalance) (img : Image) :
    CameraAutoBalance :=
  let r := self.MSV img
  r.1.controlStep r.2

/-! ## Frame scheduler and start-up -/

/-- Method `imageCallback`.  The argument is the outcome of `cv_bridge::toCvShare`:
`none` when it throws.  The remainder is the truncated one of C++; the source
divides by zero when `calibration_step_` is 0. -/
def CameraAutoBalance.imageCallback (self : CameraAutoBalance) (msg : Option Image) :
    CameraAutoBalance :=
  if Int.tmod self.frame_counter_ self.calibration_step_ = 0 then
    match msg with
    | none => self
    | some img =>
      let s := self.autoExposureControl img
      { s with frame_counter_ := s.frame_counter_ + 1 }
  else
    { self with frame_counter_ := self.frame_counter_ + 1 }

/-- Method `onInit`.  The state `pre` stands for the members that `onInit` does
not assign (`msv_error_`, `hist_`, the actuator log so far); `config` is the
request that the dynamic-reconfigure server delivers when the callback is
registered. -/
def onInit (pre : CameraAutoBalance) (params : StartupParams)
    (config : camera_auto_balance_paramsConfig) : CameraAutoBalance :=
  let s0 := { pre with frame_counter_ := 0 }
  let s1 := s0.configCallback config
  let s2 := { s1 with
    min_shutter_ := params.minShutter
    max_shutter_ := params.maxShutter
    min_gain_ := params.minGain
    max_gain_ := params.maxGain
    calibration_step_ := params.calibrationStep
    camera_serial_number_ := params.cameraSerialNumber }
  let s3 := { s2 with
    roi_ := ⟨s2.roi_x_top_left_, s2.roi_y_top_left_,
      s2.roi_x_bottom_right_ - s2.roi_x_top_left_,
      s2.roi_y_bottom_right_ - s2.roi_y_top_left_⟩
    cam_adjuster_ := s2.cam_adjuster_ ++
      [CamCommand.setSerial s2.camera_serial_number_, CamCommand.connect] }
  s3.cameraParametersInitialization

/-! ## Auxiliary views of the sampling and the reduction -/

/-- Pixels visited by `histogram`, in the order of the two nested loops, as
pairs (row, byte offset of the first channel). -/
def sampledPixels (roi : Rect) (decimation_rate : ℕ) : List (ℤ × ℤ) :=
  (sampledRows roi decimation_rate).flatMap
    (fun i => (sampledOffsets roi decimation_rate).map (fun j => (i, j)))

/-- Luminance bucket of the pixel of `img` at a sampled position. -/
def bucketAt (img : Image) (p : ℤ × ℤ) : ℤ :=
  luminance (img.ptr p.1 p.2) (img.ptr p.1 (p.2 + 1)) (img.ptr p.1 (p.2 + 2))

/-- Sum of `(i+1) * count` over a histogram whose first entry has index `i`. -/
def weightedSum : List ℤ → ℤ → ℤ
  | [], _ => 0
  | c :: rest, i => (i + 1) * c + weightedSum rest (i + 1)

/-- The region lies inside the image: `0 ≤ x`, `0 ≤ y`, `x + width ≤ cols` and
`y + height ≤ rows`. -/
def Rect.Inside (roi : Rect) (img : Image) : Prop :=
  0 ≤ roi.x ∧ 0 ≤ roi.y ∧ roi.x + roi.width ≤ img.cols ∧ roi.y + roi.height ≤ img.rows

instance (roi : Rect) (img : Image) : Decidable (roi.Inside img) := by
  unfold Rect.Inside
  infer_instance

/-- Image of the given size with every byte equal to `v`. -/
def uniformImage (rows cols : ℤ) (v : Fin 256) : Image :=
  ⟨rows, cols, fun _ _ => v⟩

/-- Region with origin (0, 0), width 12 and height 7: neither size is a multiple
of the stride 5. -/
def sampleRoi : Rect := ⟨0, 0, 12, 7⟩

/-- Histogram of 256 entries with counts 2 and 1 in the buckets 0 and 1. -/
def sampleHistogram : List ℤ := [2, 1] ++ List.replicate 254 0

/-! ## Reachable controller states and sample inputs -/

/-- Controller states reachable from the state left by
`cameraParametersInitialization` on `s0`: by controller steps on any brightness
value (a NaN included), by controller steps on any frame, and by
reconfiguration requests, which replace the reference and the two gains. -/
inductive Reachable (s0 : CameraAutoBalance) : CameraAutoBalance → Prop where
  | init : Reachable s0 s0.cameraParametersInitialization
  | step (s : CameraAutoBalance) (msv : Option ℚ) :
      Reachable s0 s → Reachable s0 (s.controlStep msv)
  | frame (s : CameraAutoBalance) (img : Image) :
      Reachable s0 s → Reachable s0 (s.autoExposureControl img)
  | config (s : CameraAutoBalance) (config : camera_auto_balance_paramsConfig) :
      Reachable s0 s → Reachable s0 (s.configCallback config)

/-- The four bounds hold: both actuator values lie in their ranges. -/
def CameraAutoBalance.InRange (s : CameraAutoBalance) : Prop :=
  (s.min_shutter_ ≤ s.u_shutter_ ∧ s.u_shutter_ ≤ s.max_shutter_) ∧
    (s.min_gain_ ≤ s.u_gain_ ∧ s.u_gain_ ≤ s.max_gain_)

/-- The start-up bounds of `s` are those of `s0`. -/
def CameraAutoBalance.SameBounds (s0 s : CameraAutoBalance) : Prop :=
  s.min_shutter_ = s0.min_shutter_ ∧ s.max_shutter_ = s0.max_shutter_ ∧
    s.min_gain_ = s0.min_gain_ ∧ s.max_gain_ = s0.max_gain_

/-- Sample state: shutter range [1, 10], gain range [0, 20], reference 128,
both gains 1/100, shutter 5 and gain 8. -/
def sampleState : CameraAutoBalance where
  frame_counter_ := 0
  calibration_step_ := 3
  camera_serial_number_ := 7
  min_shutter_ := 1
  max_shutter_ := 10
  min_gain_ := 0
  max_gain_ := 20
  roi_x_top_left_ := 0
  roi_y_top_left_ := 0
  roi_x_bottom_right_ := 12
  roi_y_bottom_right_ := 7
  roi_ := ⟨0, 0, 12, 7⟩
  msv_reference_ := 128
  show_roi_and_hist_ := false
  k_shutter_ := 1 / 100
  k_gain_ := 1 / 100
  u_shutter_ := 5
  u_gain_ := 8
  msv_error_ := none
  hist_ := []
  cam_adjuster_ := []

/-- Sample state with the shutter at its maximum. -/
def sampleAtMaxShutter : CameraAutoBalance :=
  { sampleState with u_shutter_ := 10 }

/-- Sample state with the gain at its minimum. -/
def sampleAtMinGain : CameraAutoBalance :=
  { sampleState with u_gain_ := 0 }

/-- Sample reconfiguration request with the given corners, reference 128 and
both gains 1/100. -/
def sampleConfig (tlx tly brx bry : ℤ) : camera_auto_balance_paramsConfig where
  roi_x_top_left := tlx
  roi_y_top_left := tly
  roi_x_bottom_right := brx
  roi_y_bottom_right := bry
  msvGrayReference := 128
  show_roi_and_hist := false
  kShutter := 1 / 100
  kGain := 1 / 100

/-! ## Frame streams, control-flow outcome and further sample inputs -/

/-- Path taken by one call of `imageCallback`: the gate is closed, the gate is
open and `cv_bridge::toCvShare` throws, or the gate is open and
`autoExposureControl` runs on the decoded frame. -/
inductive FrameOutcome where
  | gatedOut
  | decodeFailed
  | evaluated
  deriving DecidableEq, Repr

/-- Path that `imageCallback` takes in state `self` on the message `msg`, read
off the two tests of the method. -/
def CameraAutoBalance.frameOutcome (self : CameraAutoBalance) (msg : Option Image) :
    FrameOutcome :=
  if Int.tmod self.frame_counter_ self.calibration_step_ = 0 then
    match msg with
    | none => FrameOutcome.decodeFailed
    | some _ => FrameOutcome.evaluated
  else FrameOutcome.gatedOut

/-- State after `n` consecutive evaluation cycles: `autoExposureControl` on the
frames `frames 0`, …, `frames (n - 1)`. -/
def evaluateFrames (s : CameraAutoBalance) (frames : ℕ → Image) : ℕ → CameraAutoBalance
  | 0 => s
  | n + 1 => (evaluateFrames s frames n).autoExposureControl (frames n)

/-- Every pixel that `MSV` samples in `roi` (stride 5) has its three channel
bytes equal to `v`. -/
def UniformOn (img : Image) (roi : Rect) (v : Fin 256) : Prop :=
  ∀ p ∈ sampledPixels roi 5,
    img.ptr p.1 p.2 = v ∧ img.ptr p.1 (p.2 + 1) = v ∧ img.ptr p.1 (p.2 + 2) = v

/-- The three bytes read for the sampled position `p` lie inside the buffer of
an image with three channels: row in `[0, rows)`, byte offsets in `[0, 3·cols)`. -/
def Image.InBuffer (img : Image) (p : ℤ × ℤ) : Prop :=
  (0 ≤ p.1 ∧ p.1 < img.rows) ∧ (0 ≤ p.2 ∧ p.2 + 2 < 3 * img.cols)

instance (img : Image) (p : ℤ × ℤ) : Decidable (img.InBuffer p) := by
  unfold Image.InBuffer
  infer_instance

/-- Sample state with the shutter at its maximum and the gain at 0, its
minimum. -/
def sampleZeroGainAtMaxShutter : CameraAutoBalance :=
  { sampleState with u_shutter_ := 10, u_gain_ := 0 }

/-- Sample state whose region has width and height 0 and whose last error is 5. -/
def sampleEmptyRoi : CameraAutoBalance :=
  { sampleState with roi_ := ⟨0, 0, 0, 0⟩, msv_error_ := some 5 }

/-- Sample state with frame counter 1: the gate (step 3) is closed. -/
def sampleGatedOut : CameraAutoBalance :=
  { sampleState with frame_counter_ := 1 }

/-- Sample state with minShutter 0 and both actuators at 0. -/
def sampleZeroState : CameraAutoBalance :=
  { sampleState with min_shutter_ := 0, u_shutter_ := 0, u_gain_ := 0 }

/-- The region, the reference, the two gains and the four start-up bounds of `s`
are those of `s0`. -/
def CameraAutoBalance.SameSetup (s0 s : CameraAutoBalance) : Prop :=
  (s.roi_ = s0.roi_ ∧ s.msv_reference_ = s0.msv_reference_ ∧
    s.k_shutter_ = s0.k_shutter_ ∧ s.k_gain_ = s0.k_gain_) ∧
  CameraAutoBalance.SameBounds s0 s

/-- Stream of black 100 × 100 frames. -/
def blackFrames : ℕ → Image := fun _ => uniformImage 100 100 0

/-- Stream of mid-gray 100 × 100 frames, every byte 128. -/
def grayFrames : ℕ → Image := fun _ => uniformImage 100 100 128

/-! ## Properties of `saturate` -/

theorem saturate_ge (x lo hi : ℚ) (h : lo ≤ hi) : lo ≤ saturate x lo hi := by
  unfold saturate
  split_ifs with h1 h2
  · exact le_rfl
  · exact h
  · exact not_lt.mp h1

theorem saturate_le (x lo hi : ℚ) (h : lo ≤ hi) : saturate x lo hi ≤ hi := by
  unfold saturate
  split_ifs with h1 h2
  · exact h
  · exact le_rfl
  · exact not_lt.mp h2

theorem saturate_eq_self (x lo hi : ℚ) (h1 : lo ≤ x) (h2 : x ≤ hi) : saturate x lo hi = x := by
  unfold saturate
  rw [if_neg (not_lt.mpr h1), if_neg (not_lt.mpr h2)]

/-- C2: for all x and lo ≤ hi, `saturate x lo hi` lies in [lo, hi], and it is x
itself when x already lies in [lo, hi]. -/
theorem C2_saturate_clamps (x lo hi : ℚ) (h : lo ≤ hi) :
    (lo ≤ saturate x lo hi ∧ saturate x lo hi ≤ hi) ∧
      (lo ≤ x ∧ x ≤ hi → saturate x lo hi = x) :=
  ⟨⟨saturate_ge x lo hi h, saturate_le x lo hi h⟩,
    fun hx => saturate_eq_self x lo hi hx.1 hx.2⟩

/-- C2 at lo = 1, hi = 5: x = 7 is clamped into the range, x = 3 is returned. -/
theorem C2_saturate_clamps_witness :
    (1 : ℚ) ≤ 5 ∧ ((1 : ℚ) ≤ saturate 7 1 5 ∧ saturate 7 1 5 ≤ 5) ∧
      ((1 : ℚ) ≤ 3 ∧ (3 : ℚ) ≤ 5) ∧ saturate 3 1 5 = 3 :=
  ⟨by norm_num, (C2_saturate_clamps 7 1 5 (by norm_num)).1, by norm_num,
    (C2_saturate_clamps 3 1 5 (by norm_num)).2 (by norm_num)⟩

/-! ## Range invariant of the controller -/

theorem controlStep_bounds (s : CameraAutoBalance) (msv : Option ℚ) :
    CameraAutoBalance.SameBounds s (s.controlStep msv) := by
  unfold CameraAutoBalance.SameBounds CameraAutoBalance.controlStep
  cases msv with
  | none => simp
  | some m => dsimp only; split_ifs <;> simp

theorem controlStep_inRange (s : CameraAutoBalance) (msv : Option ℚ)
    (hs : s.min_shutter_ ≤ s.max_shutter_) (hg : s.min_gain_ ≤ s.max_gain_)
    (h : s.InRange) : (s.controlStep msv).InRange := by
  unfold CameraAutoBalance.InRange CameraAutoBalance.controlStep at *
  cases msv with
  | none => exact h
  | some m =>
    dsimp only
    split_ifs
    · exact ⟨h.1, saturate_ge _ _ _ hg, saturate_le _ _ _ hg⟩
    · exact ⟨⟨saturate_ge _ _ _ hs, saturate_le _ _ _ hs⟩, h.2⟩
    · exact ⟨⟨saturate_ge _ _ _ hs, saturate_le _ _ _ hs⟩, h.2⟩
    · exact ⟨h.1, saturate_ge _ _ _ hg, saturate_le _ _ _ hg⟩
    · exact h

theorem reachable_invariant (s0 s : CameraAutoBalance)
    (hs : s0.min_shutter_ ≤ s0.max_shutter_) (hg : s0.min_gain_ ≤ s0.max_gain_)
    (hr : Reachable s0 s) : CameraAutoBalance.SameBounds s0 s ∧ s.InRange := by
  induction hr with
  | init =>
    exact ⟨⟨rfl, rfl, rfl, rfl⟩, ⟨le_rfl, hs⟩, ⟨le_rfl, hg⟩⟩
  | step s msv _ ih =>
    obtain ⟨hb, hin⟩ := ih
    have hb2 := controlStep_bounds s msv
    obtain ⟨b1, b2, b3, b4⟩ := hb
    obtain ⟨c1, c2, c3, c4⟩ := hb2
    refine ⟨⟨c1.trans b1, c2.trans b2, c3.trans b3, c4.trans b4⟩, ?_⟩
    exact controlStep_inRange s msv (by rw [b1, b2]; exact hs) (by rw [b3, b4]; exact hg) hin
  | frame s img _ ih =>
    obtain ⟨hb, hin⟩ := ih
    have hb2 := controlStep_bounds (s.MSV img).1 (s.MSV img).2
    obtain ⟨b1, b2, b3, b4⟩ := hb
    obtain ⟨c1, c2, c3, c4⟩ := hb2
    refine ⟨⟨c1.trans b1, c2.trans b2, c3.trans b3, c4.trans b4⟩, ?_⟩
    exact controlStep_inRange (s.MSV img).1 (s.MSV img).2
      (by show s.min_shutter_ ≤ s.max_shutter_; rw [b1, b2]; exact hs)
      (by show s.min_gain_ ≤ s.max_gain_; rw [b3, b4]; exact hg) hin
  | config s config _ ih =>
    exact ih

/-- C1: in every controller state reachable from `cameraParametersInitialization`
by controller steps with arbitrary brightness values, reference and gains, when
minShutter ≤ maxShutter and minGain ≤ maxGain, the shutter lies in
[minShutter, maxShutter] and the gain in [minGain, maxGain]. -/
theorem C1_actuators_stay_in_range (s0 s : CameraAutoBalance)
    (hs : s0.min_shutter_ ≤ s0.max_shutter_) (hg : s0.min_gain_ ≤ s0.max_gain_)
    (hr : Reachable s0 s) :
    (s0.min_shutter_ ≤ s.u_shutter_ ∧ s.u_shutter_ ≤ s0.max_shutter_) ∧
      (s0.min_gain_ ≤ s.u_gain_ ∧ s.u_gain_ ≤ s0.max_gain_) := by
  obtain ⟨⟨b1, b2, b3, b4⟩, hin⟩ := reachable_invariant s0 s hs hg hr
  unfold CameraAutoBalance.InRange at hin
  rw [b1, b2, b3, b4] at hin
  exact hin

/-- C1 on the sample state: after initialisation and one step on brightness 100
(error 28) the shutter is 32/25, inside [1, 10], and the gain 0, inside [0, 20]. -/
theorem C1_actuators_stay_in_range_witness :
    (sampleState.min_shutter_ ≤ sampleState.max_shutter_ ∧
      sampleState.min_gain_ ≤ sampleState.max_gain_) ∧
    Reachable sampleState (sampleState.cameraParametersInitialization.controlStep (some 100)) ∧
    ((sampleState.min_shutter_ ≤
        (sampleState.cameraParametersInitialization.controlStep (some 100)).u_shutter_ ∧
      (sampleState.cameraParametersInitialization.controlStep (some 100)).u_shutter_ ≤
        sampleState.max_shutter_) ∧
     (sampleState.min_gain_ ≤
        (sampleState.cameraParametersInitialization.controlStep (some 100)).u_gain_ ∧
      (sampleState.cameraParametersInitialization.controlStep (some 100)).u_gain_ ≤
        sampleState.max_gain_)) :=
  ⟨by norm_num [sampleState], Reachable.step _ _ Reachable.init,
    C1_actuators_stay_in_range sampleState _ (by norm_num [sampleState])
      (by norm_num [sampleState]) (Reachable.step _ _ Reachable.init)⟩

/-! ## Dead-band, priority rule and update formulas -/

theorem tolerance_pos : (0 : ℚ) < msv_error_tolerance_ := by
  norm_num [msv_error_tolerance_]

theorem controlStep_deadband (s : CameraAutoBalance) (m : ℚ)
    (h : |s.msv_reference_ - m| ≤ msv_error_tolerance_) :
    s.controlStep (some m) = { s with msv_error_ := some (s.msv_reference_ - m) } := by
  have h1 : ¬ s.msv_reference_ - m > msv_error_tolerance_ :=
    not_lt.mpr ((le_abs_self _).trans h)
  have h2 : ¬ s.msv_reference_ - m < -msv_error_tolerance_ :=
    not_lt.mpr (by linarith [(abs_le.mp h).1])
  unfold CameraAutoBalance.controlStep
  simp only [h1, h2, if_false]

/-- C3: when |reference − MSV| ≤ tolerance, one controller step leaves the
shutter and the gain unchanged and pushes nothing to the actuator, both for the
step on a brightness value and for `autoExposureControl` on a frame with that
brightness. -/
theorem C3_deadband (s : CameraAutoBalance) (m : ℚ)
    (h : |s.msv_reference_ - m| ≤ msv_error_tolerance_) :
    ((s.controlStep (some m)).u_shutter_ = s.u_shutter_ ∧
      (s.controlStep (some m)).u_gain_ = s.u_gain_ ∧
      (s.controlStep (some m)).cam_adjuster_ = s.cam_adjuster_) ∧
    ∀ img : Image, (s.MSV img).2 = some m →
      (s.autoExposureControl img).u_shutter_ = s.u_shutter_ ∧
      (s.autoExposureControl img).u_gain_ = s.u_gain_ ∧
      (s.autoExposureControl img).cam_adjuster_ = s.cam_adjuster_ := by
  refine ⟨?_, ?_⟩
  · rw [controlStep_deadband s m h]
    exact ⟨rfl, rfl, rfl⟩
  · intro img hm
    unfold CameraAutoBalance.autoExposureControl
    dsimp only
    rw [hm, controlStep_deadband (s.MSV img).1 m h]
    exact ⟨rfl, rfl, rfl⟩

/-- C3 on the sample state (reference 128) at brightness 130: error −2. -/
theorem C3_deadband_witness :
    |sampleState.msv_reference_ - 130| ≤ msv_error_tolerance_ ∧
      (sampleState.controlStep (some 130)).u_shutter_ = sampleState.u_shutter_ ∧
      (sampleState.controlStep (some 130)).u_gain_ = sampleState.u_gain_ ∧
      (sampleState.controlStep (some 130)).cam_adjuster_ = sampleState.cam_adjuster_ :=
  ⟨by norm_num [sampleState, msv_error_tolerance_, abs_le],
    (C3_deadband sampleState 130
      (by norm_num [sampleState, msv_error_tolerance_, abs_le])).1⟩

theorem controlStep_dark_gain (s : CameraAutoBalance) (m : ℚ)
    (he : s.msv_reference_ - m > msv_error_tolerance_)
    (hw : |s.max_shutter_ - s.u_shutter_| < epsilon_shutter_) :
    s.controlStep (some m) =
      { s with
        msv_error_ := some (s.msv_reference_ - m)
        u_gain_ := saturate (s.u_gain_ * (1 + s.k_gain_ * (s.msv_reference_ - m)))
          s.min_gain_ s.max_gain_
        cam_adjuster_ := s.cam_adjuster_ ++ [CamCommand.setGain
          (saturate (s.u_gain_ * (1 + s.k_gain_ * (s.msv_reference_ - m)))
            s.min_gain_ s.max_gain_)] } := by
  unfold CameraAutoBalance.controlStep
  simp only [he, hw, if_true]

theorem controlStep_dark_shutter (s : CameraAutoBalance) (m : ℚ)
    (he : s.msv_reference_ - m > msv_error_tolerance_)
    (hw : ¬ |s.max_shutter_ - s.u_shutter_| < epsilon_shutter_) :
    s.controlStep (some m) =
      { s with
        msv_error_ := some (s.msv_reference_ - m)
        u_shutter_ := saturate (s.u_shutter_ * (1 + s.k_shutter_ * (s.msv_reference_ - m)))
          s.min_shutter_ s.max_shutter_
        cam_adjuster_ := s.cam_adjuster_ ++ [CamCommand.setShutter
          (saturate (s.u_shutter_ * (1 + s.k_shutter_ * (s.msv_reference_ - m)))
            s.min_shutter_ s.max_shutter_)] } := by
  unfold CameraAutoBalance.controlStep
  simp only [he, hw, if_true, if_false]

theorem controlStep_bright_shutter (s : CameraAutoBalance) (m : ℚ)
    (he : s.msv_reference_ - m < -msv_error_tolerance_)
    (hw : |s.min_gain_ - s.u_gain_| < epsilon_gain_) :
    s.controlStep (some m) =
      { s with
        msv_error_ := some (s.msv_reference_ - m)
        u_shutter_ := saturate (s.u_shutter_ * (1 + s.k_shutter_ * (s.msv_reference_ - m)))
          s.min_shutter_ s.max_shutter_
        cam_adjuster_ := s.cam_adjuster_ ++ [CamCommand.setShutter
          (saturate (s.u_shutter_ * (1 + s.k_shutter_ * (s.msv_reference_ - m)))
            s.min_shutter_ s.max_shutter_)] } := by
  have h1 : ¬ s.msv_reference_ - m > msv_error_tolerance_ :=
    not_lt.mpr (by linarith [tolerance_pos])
  unfold CameraAutoBalance.controlStep
  simp only [h1, he, hw, if_true, if_false]

theorem controlStep_bright_gain (s : CameraAutoBalance) (m : ℚ)
    (he : s.msv_reference_ - m < -msv_error_tolerance_)
    (hw : ¬ |s.min_gain_ - s.u_gain_| < epsilon_gain_) :
    s.controlStep (some m) =
      { s with
        msv_error_ := some (s.msv_reference_ - m)
        u_gain_ := saturate (s.u_gain_ * (1 + s.k_gain_ * (s.msv_reference_ - m)))
          s.min_gain_ s.max_gain_
        cam_adjuster_ := s.cam_adjuster_ ++ [CamCommand.setGain
          (saturate (s.u_gain_ * (1 + s.k_gain_ * (s.msv_reference_ - m)))
            s.min_gain_ s.max_gain_)] } := by
  have h1 : ¬ s.msv_reference_ - m > msv_error_tolerance_ :=
    not_lt.mpr (by linarith [tolerance_pos])
  unfold CameraAutoBalance.controlStep
  simp only [h1, he, hw, if_true, if_false]

theorem epsilon_shutter_pos : (0 : ℚ) < epsilon_shutter_ := by
  norm_num [epsilon_shutter_]

theorem epsilon_gain_pos : (0 : ℚ) < epsilon_gain_ := by
  norm_num [epsilon_gain_]

/-- C4: a step with the shutter at maxShutter and error > tolerance leaves the
shutter unchanged and pushes one gain command only; a step with the gain at
minGain and error < −tolerance leaves the gain unchanged and pushes one shutter
command only. -/
theorem C4_priority_rule (s : CameraAutoBalance) (m : ℚ) :
    (s.u_shutter_ = s.max_shutter_ → s.msv_reference_ - m > msv_error_tolerance_ →
      (s.controlStep (some m)).u_shutter_ = s.u_shutter_ ∧
      (s.controlStep (some m)).cam_adjuster_ =
        s.cam_adjuster_ ++ [CamCommand.setGain (s.controlStep (some m)).u_gain_]) ∧
    (s.u_gain_ = s.min_gain_ → s.msv_reference_ - m < -msv_error_tolerance_ →
      (s.controlStep (some m)).u_gain_ = s.u_gain_ ∧
      (s.controlStep (some m)).cam_adjuster_ =
        s.cam_adjuster_ ++ [CamCommand.setShutter (s.controlStep (some m)).u_shutter_]) := by
  refine ⟨?_, ?_⟩
  · intro hmax he
    have hw : |s.max_shutter_ - s.u_shutter_| < epsilon_shutter_ := by
      rw [hmax, sub_self, abs_zero]
      exact epsilon_shutter_pos
    rw [controlStep_dark_gain s m he hw]
    exact ⟨rfl, rfl⟩
  · intro hmin he
    have hw : |s.min_gain_ - s.u_gain_| < epsilon_gain_ := by
      rw [hmin, sub_self, abs_zero]
      exact epsilon_gain_pos
    rw [controlStep_bright_shutter s m he hw]
    exact ⟨rfl, rfl⟩

/-- C4 on the sample state: shutter at its maximum 10 with brightness 100 (error
28), and gain at its minimum 0 with brightness 200 (error −72). -/
theorem C4_priority_rule_witness :
    (sampleAtMaxShutter.u_shutter_ = sampleAtMaxShutter.max_shutter_ ∧
      sampleAtMaxShutter.msv_reference_ - 100 > msv_error_tolerance_ ∧
      (sampleAtMaxShutter.controlStep (some 100)).u_shutter_ = sampleAtMaxShutter.u_shutter_ ∧
      (sampleAtMaxShutter.controlStep (some 100)).cam_adjuster_ =
        sampleAtMaxShutter.cam_adjuster_ ++
          [CamCommand.setGain (sampleAtMaxShutter.controlStep (some 100)).u_gain_]) ∧
    (sampleAtMinGain.u_gain_ = sampleAtMinGain.min_gain_ ∧
      sampleAtMinGain.msv_reference_ - 200 < -msv_error_tolerance_ ∧
      (sampleAtMinGain.controlStep (some 200)).u_gain_ = sampleAtMinGain.u_gain_ ∧
      (sampleAtMinGain.controlStep (some 200)).cam_adjuster_ =
        sampleAtMinGain.cam_adjuster_ ++
          [CamCommand.setShutter (sampleAtMinGain.controlStep (some 200)).u_shutter_]) :=
  ⟨⟨by norm_num [sampleAtMaxShutter, sampleState],
      by norm_num [sampleAtMaxShutter, sampleState, msv_error_tolerance_],
      (C4_priority_rule sampleAtMaxShutter 100).1
        (by norm_num [sampleAtMaxShutter, sampleState])
        (by norm_num [sampleAtMaxShutter, sampleState, msv_error_tolerance_])⟩,
    ⟨by norm_num [sampleAtMinGain, sampleState],
      by norm_num [sampleAtMinGain, sampleState, msv_error_tolerance_],
      (C4_priority_rule sampleAtMinGain 200).2
        (by norm_num [sampleAtMinGain, sampleState])
        (by norm_num [sampleAtMinGain, sampleState, msv_error_tolerance_])⟩⟩

/-- C5: with error = reference − MSV, the step is the reference definition: for
error > tolerance, the shutter becomes saturate(shutter·(1 + k_s·error)) and the
gain is kept when the shutter is not within epsilonShutter of maxShutter, else
the gain becomes saturate(gain·(1 + k_g·error)) and the shutter is kept; for
error < −tolerance, the gain becomes saturate(gain·(1 + k_g·error)) and the
shutter is kept when the gain is not within epsilonGain of minGain, else the
shutter becomes saturate(shutter·(1 + k_s·error)) and the gain is kept. -/
theorem C5_step_formulas (s : CameraAutoBalance) (m : ℚ) :
    (s.msv_reference_ - m > msv_error_tolerance_ →
      ¬ |s.max_shutter_ - s.u_shutter_| < epsilon_shutter_ →
      (s.controlStep (some m)).u_shutter_ =
        saturate (s.u_shutter_ * (1 + s.k_shutter_ * (s.msv_reference_ - m)))
          s.min_shutter_ s.max_shutter_ ∧
      (s.controlStep (some m)).u_gain_ = s.u_gain_) ∧
    (s.msv_reference_ - m > msv_error_tolerance_ →
      |s.max_shutter_ - s.u_shutter_| < epsilon_shutter_ →
      (s.controlStep (some m)).u_gain_ =
        saturate (s.u_gain_ * (1 + s.k_gain_ * (s.msv_reference_ - m)))
          s.min_gain_ s.max_gain_ ∧
      (s.controlStep (some m)).u_shutter_ = s.u_shutter_) ∧
    (s.msv_reference_ - m < -msv_error_tolerance_ →
      ¬ |s.min_gain_ - s.u_gain_| < epsilon_gain_ →
      (s.controlStep (some m)).u_gain_ =
        saturate (s.u_gain_ * (1 + s.k_gain_ * (s.msv_reference_ - m)))
          s.min_gain_ s.max_gain_ ∧
      (s.controlStep (some m)).u_shutter_ = s.u_shutter_) ∧
    (s.msv_reference_ - m < -msv_error_tolerance_ →
      |s.min_gain_ - s.u_gain_| < epsilon_gain_ →
      (s.controlStep (some m)).u_shutter_ =
        saturate (s.u_shutter_ * (1 + s.k_shutter_ * (s.msv_reference_ - m)))
          s.min_shutter_ s.max_shutter_ ∧
      (s.controlStep (some m)).u_gain_ = s.u_gain_) := by
  refine ⟨?_, ?_, ?_, ?_⟩
  · intro he hw
    rw [controlStep_dark_shutter s m he hw]
    exact ⟨rfl, rfl⟩
  · intro he hw
    rw [controlStep_dark_gain s m he hw]
    exact ⟨rfl, rfl⟩
  · intro he hw
    rw [controlStep_bright_gain s m he hw]
    exact ⟨rfl, rfl⟩
  · intro he hw
    rw [controlStep_bright_shutter s m he hw]
    exact ⟨rfl, rfl⟩

/-- C5 on the sample state, one instance per case: brightness 100 (error 28)
with the shutter at 5 gives shutter 32/5, and with the shutter at its maximum
gives gain 256/25; brightness 200 (error −72) with the gain at 8 gives gain
56/25, and with the gain at its minimum gives shutter 7/5. -/
theorem C5_step_formulas_witness :
    ((sampleState.msv_reference_ - 100 > msv_error_tolerance_ ∧
        ¬ |sampleState.max_shutter_ - sampleState.u_shutter_| < epsilon_shutter_) ∧
      (sampleState.controlStep (some 100)).u_shutter_ = 32 / 5 ∧
      (sampleState.controlStep (some 100)).u_gain_ = 8) ∧
    ((sampleAtMaxShutter.msv_reference_ - 100 > msv_error_tolerance_ ∧
        |sampleAtMaxShutter.max_shutter_ - sampleAtMaxShutter.u_shutter_| < epsilon_shutter_) ∧
      (sampleAtMaxShutter.controlStep (some 100)).u_gain_ = 256 / 25 ∧
      (sampleAtMaxShutter.controlStep (some 100)).u_shutter_ = 10) ∧
    ((sampleState.msv_reference_ - 200 < -msv_error_tolerance_ ∧
        ¬ |sampleState.min_gain_ - sampleState.u_gain_| < epsilon_gain_) ∧
      (sampleState.controlStep (some 200)).u_gain_ = 56 / 25 ∧
      (sampleState.controlStep (some 200)).u_shutter_ = 5) ∧
    ((sampleAtMinGain.msv_reference_ - 200 < -msv_error_tolerance_ ∧
        |sampleAtMinGain.min_gain_ - sampleAtMinGain.u_gain_| < epsilon_gain_) ∧
      (sampleAtMinGain.controlStep (some 200)).u_shutter_ = 7 / 5 ∧
      (sampleAtMinGain.controlStep (some 200)).u_gain_ = 0) := by
  have a1 : sampleState.msv_reference_ - 100 > msv_error_tolerance_ := by
    norm_num [sampleState, msv_error_tolerance_]
  have a2 : ¬ |sampleState.max_shutter_ - sampleState.u_shutter_| < epsilon_shutter_ := by
    norm_num [sampleState, epsilon_shutter_, abs_lt]
  have b1 : sampleAtMaxShutter.msv_reference_ - 100 > msv_error_tolerance_ := by
    norm_num [sampleAtMaxShutter, sampleState, msv_error_tolerance_]
  have b2 : |sampleAtMaxShutter.max_shutter_ - sampleAtMaxShutter.u_shutter_|
      < epsilon_shutter_ := by
    norm_num [sampleAtMaxShutter, sampleState, epsilon_shutter_, abs_lt]
  have c1 : sampleState.msv_reference_ - 200 < -msv_error_tolerance_ := by
    norm_num [sampleState, msv_error_tolerance_]
  have c2 : ¬ |sampleState.min_gain_ - sampleState.u_gain_| < epsilon_gain_ := by
    norm_num [sampleState, epsilon_gain_, abs_lt]
  have d1 : sampleAtMinGain.msv_reference_ - 200 < -msv_error_tolerance_ := by
    norm_num [sampleAtMinGain, sampleState, msv_error_tolerance_]
  have d2 : |sampleAtMinGain.min_gain_ - sampleAtMinGain.u_gain_| < epsilon_gain_ := by
    norm_num [sampleAtMinGain, sampleState, epsilon_gain_, abs_lt]
  have ha := (C5_step_formulas sampleState 100).1 a1 a2
  have hb := (C5_step_formulas sampleAtMaxShutter 100).2.1 b1 b2
  have hc := (C5_step_formulas sampleState 200).2.2.1 c1 c2
  have hd := (C5_step_formulas sampleAtMinGain 200).2.2.2 d1 d2
  refine ⟨⟨⟨a1, a2⟩, ?_, ?_⟩, ⟨⟨b1, b2⟩, ?_, ?_⟩, ⟨⟨c1, c2⟩, ?_, ?_⟩, ⟨⟨d1, d2⟩, ?_, ?_⟩⟩
  · rw [ha.1]; norm_num [sampleState, saturate]
  · rw [ha.2]; rfl
  · rw [hb.1]; norm_num [sampleAtMaxShutter, sampleState, saturate]
  · rw [hb.2]; rfl
  · rw [hc.1]; norm_num [sampleState, saturate]
  · rw [hc.2]; rfl
  · rw [hd.1]; norm_num [sampleAtMinGain, sampleState, saturate]
  · rw [hd.2]; rfl

/-! ## Reconfiguration -/

theorem byte_cast_le (b : Fin 256) : (b.val : ℚ) ≤ 255 := by
  have h : b.val ≤ 255 := by have := b.isLt; omega
  exact_mod_cast h

theorem byte_cast_nonneg (b : Fin 256) : (0 : ℚ) ≤ (b.val : ℚ) :=
  Nat.cast_nonneg _

theorem luminance_bounds (b g r : Fin 256) : 0 ≤ luminance b g r ∧ luminance b g r ≤ 255 := by
  have hb := byte_cast_le b
  have hg := byte_cast_le g
  have hr := byte_cast_le r
  have hb0 := byte_cast_nonneg b
  have hg0 := byte_cast_nonneg g
  have hr0 := byte_cast_nonneg r
  have h0 : (0 : ℚ) ≤ (114 / 1000 : ℚ) * (b.val : ℚ) + (587 / 1000 : ℚ) * (g.val : ℚ)
      + (299 / 1000 : ℚ) * (r.val : ℚ) := by linarith
  have h1 : (114 / 1000 : ℚ) * (b.val : ℚ) + (587 / 1000 : ℚ) * (g.val : ℚ)
      + (299 / 1000 : ℚ) * (r.val : ℚ) ≤ 255 := by linarith
  unfold luminance castInt
  rw [if_pos h0]
  refine ⟨Int.floor_nonneg.mpr h0, ?_⟩
  have h2 := Int.floor_le_floor h1
  have h3 : ⌊(255 : ℚ)⌋ = 255 := by simp
  rw [h3] at h2
  exact h2

theorem luminance_gray (v : Fin 256) : luminance v v v = (v.val : ℤ) := by
  have hv0 := byte_cast_nonneg v
  have e : (114 / 1000 : ℚ) * (v.val : ℚ) + (587 / 1000 : ℚ) * (v.val : ℚ)
      + (299 / 1000 : ℚ) * (v.val : ℚ) = (v.val : ℚ) := by ring
  unfold luminance castInt
  rw [e, if_pos hv0]
  exact Int.floor_natCast _

theorem loopIndices_count (stop step : ℤ) (hstep : 1 ≤ step) :
    ∀ (fuel : ℕ) (i : ℤ), (stop - i).toNat ≤ fuel →
      stop - i ≤ ((loopIndices stop step fuel i).length : ℤ) * step ∧
      (i < stop → (((loopIndices stop step fuel i).length : ℤ) - 1) * step < stop - i) ∧
      (stop ≤ i → (loopIndices stop step fuel i).length = 0) := by
  intro fuel
  induction fuel with
  | zero =>
    intro i hf
    have hle : stop - i ≤ 0 := by omega
    simp only [loopIndices, List.length_nil, Nat.cast_zero, zero_mul]
    exact ⟨hle, fun h => by omega, fun _ => trivial⟩
  | succ n ih =>
    intro i hf
    by_cases hi : i < stop
    · have hrec := ih (i + step) (by omega)
      obtain ⟨h1, h2, h3⟩ := hrec
      simp only [loopIndices, if_pos hi, List.length_cons, Nat.cast_add, Nat.cast_one]
      refine ⟨by linarith, fun _ => ?_, fun h => by omega⟩
      by_cases hnext : i + step < stop
      · have := h2 hnext
        linarith
      · have hz := h3 (by omega)
        rw [hz]
        simp only [Nat.cast_zero, zero_add, sub_self, zero_mul]
        omega
    · simp only [loopIndices, if_neg hi, List.length_nil, Nat.cast_zero, zero_mul]
      exact ⟨by omega, fun h => absurd h hi, fun _ => trivial⟩

theorem loopIndices_fuel (stop step : ℤ) (hstep : 1 ≤ step) :
    ∀ (fuel : ℕ) (i : ℤ) (k : ℕ), (stop - i).toNat ≤ fuel →
      loopIndices stop step (fuel + k) i = loopIndices stop step fuel i := by
  intro fuel
  induction fuel with
  | zero =>
    intro i k hf
    have hle : ¬ i < stop := by omega
    cases k with
    | zero => rfl
    | succ k => simp only [Nat.zero_add, loopIndices, if_neg hle]
  | succ n ih =>
    intro i k hf
    rw [Nat.add_right_comm]
    by_cases hi : i < stop
    · simp only [loopIndices, if_pos hi]
      rw [ih (i + step) k (by omega)]
    · simp only [loopIndices, if_neg hi]

/-! ## Histogram as a fold over the sampled pixels -/

theorem histogram_eq_foldl (img : Image) (roi : Rect) (rate : ℕ) :
    histogram img roi rate =
      (sampledPixels roi rate).foldl (fun hist p => incrementBucket hist (bucketAt img p))
        (List.replicate hist_size_ 0) := by
  unfold histogram sampledPixels
  generalize List.replicate hist_size_ (0 : ℤ) = h0
  generalize sampledRows roi rate = rows
  induction rows generalizing h0 with
  | nil => rfl
  | cons i rest ih =>
    rw [List.foldl_cons, List.flatMap_cons, List.foldl_append, ih, List.foldl_map]
    rfl

theorem bump_length (hist : List ℤ) (k : ℕ) : (bump hist k).length = hist.length := by
  induction hist generalizing k with
  | nil => rfl
  | cons c cs ih =>
    cases k with
    | zero => rfl
    | succ n => simp only [bump, List.length_cons, ih]

theorem bump_sum (hist : List ℤ) (k : ℕ) (hk : k < hist.length) :
    (bump hist k).sum = hist.sum + 1 := by
  induction hist generalizing k with
  | nil => simp at hk
  | cons c cs ih =>
    cases k with
    | zero => simp only [bump, List.sum_cons]; ring
    | succ n =>
      simp only [List.length_cons, Nat.add_lt_add_iff_right] at hk
      simp only [bump, List.sum_cons, ih n hk]
      ring

theorem bump_weightedSum (hist : List ℤ) (k : ℕ) (i : ℤ) (hk : k < hist.length) :
    weightedSum (bump hist k) i = weightedSum hist i + (i + k + 1) := by
  induction hist generalizing k i with
  | nil => simp at hk
  | cons c cs ih =>
    cases k with
    | zero => simp only [bump, weightedSum, Nat.cast_zero]; ring
    | succ n =>
      simp only [List.length_cons, Nat.add_lt_add_iff_right] at hk
      simp only [bump, weightedSum, ih n (i + 1) hk, Nat.cast_add, Nat.cast_one]
      ring

theorem foldl_increment (buckets : List ℤ) (hist : List ℤ)
    (hb : ∀ l ∈ buckets, 0 ≤ l ∧ l < (hist.length : ℤ)) :
    (buckets.foldl incrementBucket hist).length = hist.length ∧
      (buckets.foldl incrementBucket hist).sum = hist.sum + (buckets.length : ℤ) ∧
      weightedSum (buckets.foldl incrementBucket hist) 0 =
        weightedSum hist 0 + (buckets.map (fun l => l + 1)).sum := by
  induction buckets generalizing hist with
  | nil => simp
  | cons l rest ih =>
    have hl := hb l (List.mem_cons_self _ _)
    have hk : l.toNat < hist.length := by omega
    have hlen : (incrementBucket hist l).length = hist.length := by
      unfold incrementBucket
      rw [if_pos hl.1, bump_length]
    have hsum : (incrementBucket hist l).sum = hist.sum + 1 := by
      unfold incrementBucket
      rw [if_pos hl.1, bump_sum _ _ hk]
    have hw : weightedSum (incrementBucket hist l) 0 = weightedSum hist 0 + (l + 1) := by
      unfold incrementBucket
      rw [if_pos hl.1, bump_weightedSum _ _ _ hk, Int.toNat_of_nonneg hl.1]
      ring
    have hrest : ∀ l' ∈ rest, 0 ≤ l' ∧ l' < ((incrementBucket hist l).length : ℤ) := by
      intro l' hl'
      rw [hlen]
      exact hb l' (List.mem_cons_of_mem _ hl')
    obtain ⟨h1, h2, h3⟩ := ih (incrementBucket hist l) hrest
    rw [List.foldl_cons]
    refine ⟨h1.trans hlen, ?_, ?_⟩
    · rw [h2, hsum, List.length_cons]
      push_cast
      ring
    · rw [h3, hw, List.map_cons, List.sum_cons]
      ring

theorem sampledPixels_length (roi : Rect) (rate : ℕ) :
    (sampledPixels roi rate).length =
      (sampledRows roi rate).length * (sampledOffsets roi rate).length := by
  unfold sampledPixels
  generalize sampledRows roi rate = rows
  induction rows with
  | nil => simp
  | cons i rest ih =>
    rw [List.flatMap_cons, List.length_append, ih, List.length_map, List.length_cons]
    ring

theorem histogram_facts (img : Image) (roi : Rect) (rate : ℕ) :
    (histogram img roi rate).length = hist_size_ ∧
      (histogram img roi rate).sum = ((sampledPixels roi rate).length : ℤ) ∧
      weightedSum (histogram img roi rate) 0 =
        ((sampledPixels roi rate).map (fun p => bucketAt img p + 1)).sum := by
  have hfold : ∀ (ps : List (ℤ × ℤ)) (h0 : List ℤ),
      ps.foldl (fun hist p => incrementBucket hist (bucketAt img p)) h0 =
        (ps.map (bucketAt img)).foldl incrementBucket h0 := by
    intro ps h0
    rw [List.foldl_map]
  have hb : ∀ l ∈ (sampledPixels roi rate).map (bucketAt img),
      0 ≤ l ∧ l < ((List.replicate hist_size_ (0 : ℤ)).length : ℤ) := by
    intro l hl
    obtain ⟨p, _, rfl⟩ := List.mem_map.mp hl
    have := luminance_bounds (img.ptr p.1 p.2) (img.ptr p.1 (p.2 + 1)) (img.ptr p.1 (p.2 + 2))
    rw [List.length_replicate]
    unfold bucketAt hist_size_
    constructor
    · exact this.1
    · have h2 := this.2
      push_cast
      omega
  obtain ⟨h1, h2, h3⟩ := foldl_increment _ _ hb
  have hz : ∀ (n : ℕ) (i : ℤ), weightedSum (List.replicate n 0) i = 0 := by
    intro n
    induction n with
    | zero => intro i; rfl
    | succ n ih => intro i; simp only [List.replicate_succ, weightedSum, ih, mul_zero, add_zero]
  rw [histogram_eq_foldl, hfold]
  refine ⟨?_, ?_, ?_⟩
  · rw [h1, List.length_replicate]
  · rw [h2, List.length_map, List.sum_replicate, smul_zero, zero_add]
  · rw [h3, hz, zero_add, List.map_map]
    rfl

theorem sampledRows_length (roi : Rect) (rate : ℕ) (hH : 0 < roi.height) (hS : 1 ≤ rate) :
    ((sampledRows roi rate).length : ℤ) = ⌈(roi.height : ℚ) / (rate : ℚ)⌉ := by
  have hS' : (1 : ℤ) ≤ (rate : ℤ) := by exact_mod_cast hS
  obtain ⟨h1, h2, _⟩ := loopIndices_count (roi.y + roi.height) (rate : ℤ) hS'
    ((roi.y + roi.height) - roi.y).toNat roi.y le_rfl
  have h2' := h2 (by omega)
  unfold sampledRows
  generalize (loopIndices (roi.y + roi.height) (rate : ℤ)
    ((roi.y + roi.height) - roi.y).toNat roi.y).length = L at h1 h2' ⊢
  have e : roi.y + roi.height - roi.y = roi.height := by ring
  rw [e] at h1 h2'
  have hq : (0 : ℚ) < (rate : ℚ) := by exact_mod_cast hS
  symm
  rw [Int.ceil_eq_iff]
  constructor
  · rw [lt_div_iff₀ hq]
    exact_mod_cast h2'
  · rw [div_le_iff₀ hq]
    exact_mod_cast h1

theorem sampledOffsets_length (roi : Rect) (rate : ℕ) (hW : 0 < roi.width) (hS : 1 ≤ rate) :
    ((sampledOffsets roi rate).length : ℤ) = ⌈(roi.width : ℚ) / (rate : ℚ)⌉ := by
  have hS' : (1 : ℤ) ≤ 3 * (rate : ℤ) := by
    have : (1 : ℤ) ≤ (rate : ℤ) := by exact_mod_cast hS
    omega
  obtain ⟨h1, h2, _⟩ := loopIndices_count (3 * (roi.x + roi.width)) (3 * (rate : ℤ)) hS'
    (3 * (roi.x + roi.width) - 3 * roi.x).toNat (3 * roi.x) le_rfl
  have h2' := h2 (by omega)
  unfold sampledOffsets
  generalize (loopIndices (3 * (roi.x + roi.width)) (3 * (rate : ℤ))
    (3 * (roi.x + roi.width) - 3 * roi.x).toNat (3 * roi.x)).length = L at h1 h2' ⊢
  have e : 3 * (roi.x + roi.width) - 3 * roi.x = 3 * roi.width := by ring
  rw [e] at h1 h2'
  have hq : (0 : ℚ) < (rate : ℚ) := by exact_mod_cast hS
  symm
  rw [Int.ceil_eq_iff]
  constructor
  · rw [lt_div_iff₀ hq]
    have h3 : ((L : ℤ) - 1) * (rate : ℤ) < roi.width := by linarith
    exact_mod_cast h3
  · rw [div_le_iff₀ hq]
    have h3 : roi.width ≤ (L : ℤ) * (rate : ℤ) := by linarith
    exact_mod_cast h3

theorem msvLoop_eq (hist : List ℤ) (i : ℤ) (acc : ℚ × ℚ) :
    msvLoop hist i acc =
      (acc.1 + ((weightedSum hist i : ℤ) : ℚ), acc.2 + ((hist.sum : ℤ) : ℚ)) := by
  induction hist generalizing i acc with
  | nil => simp [msvLoop, weightedSum]
  | cons c rest ih =>
    simp only [msvLoop, weightedSum, List.sum_cons, ih]
    push_cast
    refine Prod.ext ?_ ?_ <;> simp only <;> ring

theorem msvReduce_eq (hist : List ℤ) :
    msvReduce hist =
      if ((hist.sum : ℤ) : ℚ) = 0 then none
      else some (((weightedSum hist 0 : ℤ) : ℚ) / ((hist.sum : ℤ) : ℚ)) := by
  unfold msvReduce
  simp only [msvLoop_eq, zero_add]

theorem weightedSum_eq_sum (hist : List ℤ) (i : ℤ) :
    weightedSum hist i =
      ∑ k in Finset.range hist.length, (i + (k : ℤ) + 1) * hist.getD k 0 := by
  induction hist generalizing i with
  | nil => simp [weightedSum]
  | cons c rest ih =>
    rw [weightedSum, List.length_cons, Finset.sum_range_succ', ih]
    simp only [List.getD_cons_succ, List.getD_cons_zero, Nat.cast_zero, Nat.cast_add,
      Nat.cast_one]
    rw [add_comm]
    congr 1
    · apply Finset.sum_congr rfl
      intro k _
      ring
    · ring

theorem listSum_eq_sum (hist : List ℤ) :
    hist.sum = ∑ k in Finset.range hist.length, hist.getD k 0 := by
  induction hist with
  | nil => simp
  | cons c rest ih =>
    rw [List.sum_cons, List.length_cons, Finset.sum_range_succ', ih]
    simp only [List.getD_cons_succ, List.getD_cons_zero]
    ring

theorem weightedSum_bounds (hist : List ℤ) (i : ℤ) (hi : 0 ≤ i)
    (hnn : ∀ c ∈ hist, 0 ≤ c) :
    (i + 1) * hist.sum ≤ weightedSum hist i ∧
      weightedSum hist i ≤ (i + (hist.length : ℤ)) * hist.sum := by
  induction hist generalizing i with
  | nil => simp [weightedSum]
  | cons c rest ih =>
    have hc : 0 ≤ c := hnn c (List.mem_cons_self _ _)
    have hrest : ∀ c' ∈ rest, 0 ≤ c' := fun c' h => hnn c' (List.mem_cons_of_mem _ h)
    have hs : 0 ≤ rest.sum := List.sum_nonneg hrest
    obtain ⟨h1, h2⟩ := ih (i + 1) (by omega) hrest
    have hl : (0 : ℤ) ≤ (rest.length : ℤ) := Int.natCast_nonneg _
    rw [weightedSum, List.sum_cons, List.length_cons]
    push_cast
    constructor
    · nlinarith
    · nlinarith [mul_nonneg hl hc]

theorem sum_map_const_succ (ps : List (ℤ × ℤ)) (f : ℤ × ℤ → ℤ) (l : ℤ)
    (h : ∀ p ∈ ps, f p = l) :
    (ps.map (fun p => f p + 1)).sum = (ps.length : ℤ) * (l + 1) := by
  induction ps with
  | nil => simp
  | cons p rest ih =>
    rw [List.map_cons, List.sum_cons, ih (fun q hq => h q (List.mem_cons_of_mem _ hq)),
      h p (List.mem_cons_self _ _), List.length_cons]
    push_cast
    ring

theorem msvReduce_uniform (img : Image) (roi : Rect) (rate : ℕ) (l : ℤ)
    (hne : sampledPixels roi rate ≠ [])
    (hl : ∀ p ∈ sampledPixels roi rate, bucketAt img p = l) :
    msvReduce (histogram img roi rate) = some ((l : ℚ) + 1) := by
  obtain ⟨_, h2, h3⟩ := histogram_facts img roi rate
  have hn : 0 < (sampledPixels roi rate).length := List.length_pos.mpr hne
  have hq : (0 : ℚ) < (((sampledPixels roi rate).length : ℤ) : ℚ) := by exact_mod_cast hn
  rw [msvReduce_eq, h2, h3, sum_map_const_succ _ _ l hl, if_neg (ne_of_gt hq)]
  congr 1
  push_cast
  field_simp

theorem saturate_ge_of_le (x y lo hi : ℚ) (hx : x ≤ hi) (hxy : x ≤ y) :
    x ≤ saturate y lo hi := by
  unfold saturate
  split_ifs with h1 h2
  · linarith
  · exact hx
  · exact hxy

theorem saturate_le_of_le (x y lo hi : ℚ) (hx : lo ≤ x) (hxy : y ≤ x) :
    saturate y lo hi ≤ x := by
  unfold saturate
  split_ifs with h1 h2
  · exact hx
  · linarith
  · exact hxy

/-- C17: for every in-range controller state with 0 ≤ minShutter ≤ maxShutter,
0 ≤ minGain ≤ maxGain and k_s, k_g ≥ 0, a step with error > tolerance yields
shutter' ≥ shutter and gain' ≥ gain, and a step with error < −tolerance yields
shutter' ≤ shutter and gain' ≤ gain. -/
theorem C17_direction_of_correction (s : CameraAutoBalance) (m : ℚ) (hin : s.InRange)
    (hs : 0 ≤ s.min_shutter_ ∧ s.min_shutter_ ≤ s.max_shutter_)
    (hg : 0 ≤ s.min_gain_ ∧ s.min_gain_ ≤ s.max_gain_)
    (hks : 0 ≤ s.k_shutter_) (hkg : 0 ≤ s.k_gain_) :
    (s.msv_reference_ - m > msv_error_tolerance_ →
      s.u_shutter_ ≤ (s.controlStep (some m)).u_shutter_ ∧
      s.u_gain_ ≤ (s.controlStep (some m)).u_gain_) ∧
    (s.msv_reference_ - m < -msv_error_tolerance_ →
      (s.controlStep (some m)).u_shutter_ ≤ s.u_shutter_ ∧
      (s.controlStep (some m)).u_gain_ ≤ s.u_gain_) := by
  obtain ⟨⟨hs1, hs2⟩, ⟨hg1, hg2⟩⟩ := hin
  have htol := tolerance_pos
  have hu0 : 0 ≤ s.u_shutter_ := le_trans hs.1 hs1
  have hg0 : 0 ≤ s.u_gain_ := le_trans hg.1 hg1
  refine ⟨?_, ?_⟩
  · intro he
    have hpos : 0 < s.msv_reference_ - m := by linarith
    by_cases hw : |s.max_shutter_ - s.u_shutter_| < epsilon_shutter_
    · rw [controlStep_dark_gain s m he hw]
      refine ⟨le_rfl, ?_⟩
      apply saturate_ge_of_le _ _ _ _ hg2
      nlinarith [mul_nonneg hkg hpos.le, mul_nonneg hg0 (mul_nonneg hkg hpos.le)]
    · rw [controlStep_dark_shutter s m he hw]
      refine ⟨?_, le_rfl⟩
      apply saturate_ge_of_le _ _ _ _ hs2
      nlinarith [mul_nonneg hks hpos.le, mul_nonneg hu0 (mul_nonneg hks hpos.le)]
  · intro he
    have hneg : 0 < -(s.msv_reference_ - m) := by linarith
    by_cases hw : |s.min_gain_ - s.u_gain_| < epsilon_gain_
    · rw [controlStep_bright_shutter s m he hw]
      refine ⟨?_, le_rfl⟩
      apply saturate_le_of_le _ _ _ _ hs1
      nlinarith [mul_nonneg hu0 (mul_nonneg hks hneg.le)]
    · rw [controlStep_bright_gain s m he hw]
      refine ⟨le_rfl, ?_⟩
      apply saturate_le_of_le _ _ _ _ hg1
      nlinarith [mul_nonneg hg0 (mul_nonneg hkg hneg.le)]

/-- C17 on the sample state (shutter 5 in [1, 10], gain 8 in [0, 20], gains
1/100): brightness 100 (error 28) does not lower either actuator, brightness 200
(error −72) does not raise either. -/
theorem C17_direction_of_correction_witness :
    (sampleState.InRange ∧
      (0 ≤ sampleState.min_shutter_ ∧ sampleState.min_shutter_ ≤ sampleState.max_shutter_) ∧
      (0 ≤ sampleState.min_gain_ ∧ sampleState.min_gain_ ≤ sampleState.max_gain_) ∧
      0 ≤ sampleState.k_shutter_ ∧ 0 ≤ sampleState.k_gain_) ∧
    (sampleState.msv_reference_ - 100 > msv_error_tolerance_ ∧
      sampleState.u_shutter_ ≤ (sampleState.controlStep (some 100)).u_shutter_ ∧
      sampleState.u_gain_ ≤ (sampleState.controlStep (some 100)).u_gain_) ∧
    (sampleState.msv_reference_ - 200 < -msv_error_tolerance_ ∧
      (sampleState.controlStep (some 200)).u_shutter_ ≤ sampleState.u_shutter_ ∧
      (sampleState.controlStep (some 200)).u_gain_ ≤ sampleState.u_gain_) := by
  have h1 : sampleState.InRange := by
    norm_num [CameraAutoBalance.InRange, sampleState]
  have h2 : 0 ≤ sampleState.min_shutter_ ∧ sampleState.min_shutter_ ≤ sampleState.max_shutter_ := by
    norm_num [sampleState]
  have h3 : 0 ≤ sampleState.min_gain_ ∧ sampleState.min_gain_ ≤ sampleState.max_gain_ := by
    norm_num [sampleState]
  have h4 : 0 ≤ sampleState.k_shutter_ := by norm_num [sampleState]
  have h5 : 0 ≤ sampleState.k_gain_ := by norm_num [sampleState]
  have e1 : sampleState.msv_reference_ - 100 > msv_error_tolerance_ := by
    norm_num [sampleState, msv_error_tolerance_]
  have e2 : sampleState.msv_reference_ - 200 < -msv_error_tolerance_ := by
    norm_num [sampleState, msv_error_tolerance_]
  exact ⟨⟨h1, h2, h3, h4, h5⟩,
    ⟨e1, (C17_direction_of_correction sampleState 100 h1 h2 h3 h4 h5).1 e1⟩,
    ⟨e2, (C17_direction_of_correction sampleState 200 h1 h2 h3 h4 h5).2 e2⟩⟩

/-! ## Zero is absorbing -/

theorem saturate_zero_mul (c lo hi : ℚ) (h1 : lo ≤ 0) (h2 : 0 ≤ hi) :
    saturate (0 * c) lo hi = 0 := by
  rw [zero_mul]
  exact saturate_eq_self 0 lo hi h1 h2

theorem controlStep_gain_zero (s : CameraAutoBalance) (msv : Option ℚ)
    (h1 : s.min_gain_ ≤ 0) (h2 : 0 ≤ s.max_gain_) (h0 : s.u_gain_ = 0) :
    (s.controlStep msv).u_gain_ = 0 := by
  cases msv with
  | none => exact h0
  | some m =>
    unfold CameraAutoBalance.controlStep
    dsimp only
    split_ifs
    · rw [h0]; exact saturate_zero_mul _ _ _ h1 h2
    · exact h0
    · exact h0
    · rw [h0]; exact saturate_zero_mul _ _ _ h1 h2
    · exact h0

theorem controlStep_shutter_zero (s : CameraAutoBalance) (msv : Option ℚ)
    (h1 : s.min_shutter_ ≤ 0) (h2 : 0 ≤ s.max_shutter_) (h0 : s.u_shutter_ = 0) :
    (s.controlStep msv).u_shutter_ = 0 := by
  cases msv with
  | none => exact h0
  | some m =>
    unfold CameraAutoBalance.controlStep
    dsimp only
    split_ifs
    · exact h0
    · rw [h0]; exact saturate_zero_mul _ _ _ h1 h2
    · rw [h0]; exact saturate_zero_mul _ _ _ h1 h2
    · exact h0
    · exact h0

theorem reachable_gain_zero (s0 s : CameraAutoBalance) (h1 : s0.min_gain_ = 0)
    (h2 : 0 ≤ s0.max_gain_) (hr : Reachable s0 s) :
    (s.min_gain_ = 0 ∧ 0 ≤ s.max_gain_) ∧ s.u_gain_ = 0 := by
  induction hr with
  | init => exact ⟨⟨h1, h2⟩, h1⟩
  | step s msv _ ih =>
    obtain ⟨⟨b1, b2⟩, hz⟩ := ih
    obtain ⟨_, _, c3, c4⟩ := controlStep_bounds s msv
    exact ⟨⟨c3.trans b1, by rw [c4]; exact b2⟩,
      controlStep_gain_zero s msv (le_of_eq b1) b2 hz⟩
  | frame s img _ ih =>
    obtain ⟨⟨b1, b2⟩, hz⟩ := ih
    obtain ⟨_, _, c3, c4⟩ := controlStep_bounds (s.MSV img).1 (s.MSV img).2
    exact ⟨⟨c3.trans b1, le_of_le_of_eq b2 c4.symm⟩,
      controlStep_gain_zero (s.MSV img).1 (s.MSV img).2 (le_of_eq b1) b2 hz⟩
  | config s config _ ih => exact ih

theorem reachable_shutter_zero (s0 s : CameraAutoBalance) (h1 : s0.min_shutter_ = 0)
    (h2 : 0 ≤ s0.max_shutter_) (hr : Reachable s0 s) :
    (s.min_shutter_ = 0 ∧ 0 ≤ s.max_shutter_) ∧ s.u_shutter_ = 0 := by
  induction hr with
  | init => exact ⟨⟨h1, h2⟩, h1⟩
  | step s msv _ ih =>
    obtain ⟨⟨b1, b2⟩, hz⟩ := ih
    obtain ⟨c1, c2, _, _⟩ := controlStep_bounds s msv
    exact ⟨⟨c1.trans b1, by rw [c2]; exact b2⟩,
      controlStep_shutter_zero s msv (le_of_eq b1) b2 hz⟩
  | frame s img _ ih =>
    obtain ⟨⟨b1, b2⟩, hz⟩ := ih
    obtain ⟨c1, c2, _, _⟩ := controlStep_bounds (s.MSV img).1 (s.MSV img).2
    exact ⟨⟨c1.trans b1, le_of_le_of_eq b2 c2.symm⟩,
      controlStep_shutter_zero (s.MSV img).1 (s.MSV img).2 (le_of_eq b1) b2 hz⟩
  | config s config _ ih => exact ih

/-- C19: if minGain ≤ 0 ≤ maxGain and gain = 0, gain is still 0 after any
controller step (any MSV, reference, k_g); when minGain = 0 ≤ maxGain the gain
set by `cameraParametersInitialization` is 0 in every reachable state.  The same
holds for the shutter with minShutter ≤ 0 ≤ maxShutter and shutter = 0. -/
theorem C19_zero_is_absorbing (s : CameraAutoBalance) (msv : Option ℚ)
    (s0 sr : CameraAutoBalance) (hr : Reachable s0 sr) :
    (s.min_gain_ ≤ 0 ∧ 0 ≤ s.max_gain_ ∧ s.u_gain_ = 0 → (s.controlStep msv).u_gain_ = 0) ∧
    (s0.min_gain_ = 0 ∧ 0 ≤ s0.max_gain_ → sr.u_gain_ = 0) ∧
    (s.min_shutter_ ≤ 0 ∧ 0 ≤ s.max_shutter_ ∧ s.u_shutter_ = 0 →
      (s.controlStep msv).u_shutter_ = 0) ∧
    (s0.min_shutter_ = 0 ∧ 0 ≤ s0.max_shutter_ → sr.u_shutter_ = 0) :=
  ⟨fun h => controlStep_gain_zero s msv h.1 h.2.1 h.2.2,
    fun h => (reachable_gain_zero s0 sr h.1 h.2 hr).2,
    fun h => controlStep_shutter_zero s msv h.1 h.2.1 h.2.2,
    fun h => (reachable_shutter_zero s0 sr h.1 h.2 hr).2⟩

/-- C19 on the sample state with minShutter = minGain = 0 and both actuators at
0: a step on brightness 100 (error 28), alone or after initialisation, leaves
both at 0. -/
theorem C19_zero_is_absorbing_witness :
    Reachable sampleZeroState
      (sampleZeroState.cameraParametersInitialization.controlStep (some 100)) ∧
    ((sampleZeroState.min_gain_ ≤ 0 ∧ 0 ≤ sampleZeroState.max_gain_ ∧
        sampleZeroState.u_gain_ = 0) ∧
      (sampleZeroState.controlStep (some 100)).u_gain_ = 0) ∧
    ((sampleZeroState.min_gain_ = 0 ∧ 0 ≤ sampleZeroState.max_gain_) ∧
      (sampleZeroState.cameraParametersInitialization.controlStep (some 100)).u_gain_ = 0) ∧
    ((sampleZeroState.min_shutter_ ≤ 0 ∧ 0 ≤ sampleZeroState.max_shutter_ ∧
        sampleZeroState.u_shutter_ = 0) ∧
      (sampleZeroState.controlStep (some 100)).u_shutter_ = 0) ∧
    ((sampleZeroState.min_shutter_ = 0 ∧ 0 ≤ sampleZeroState.max_shutter_) ∧
      (sampleZeroState.cameraParametersInitialization.controlStep (some 100)).u_shutter_
        = 0) := by
  have hr : Reachable sampleZeroState
      (sampleZeroState.cameraParametersInitialization.controlStep (some 100)) :=
    Reachable.step _ _ Reachable.init
  have a : sampleZeroState.min_gain_ ≤ 0 ∧ 0 ≤ sampleZeroState.max_gain_ ∧
      sampleZeroState.u_gain_ = 0 := by
    norm_num [sampleZeroState, sampleState]
  have b : sampleZeroState.min_gain_ = 0 ∧ 0 ≤ sampleZeroState.max_gain_ := by
    norm_num [sampleZeroState, sampleState]
  have c : sampleZeroState.min_shutter_ ≤ 0 ∧ 0 ≤ sampleZeroState.max_shutter_ ∧
      sampleZeroState.u_shutter_ = 0 := by
    norm_num [sampleZeroState, sampleState]
  have d : sampleZeroState.min_shutter_ = 0 ∧ 0 ≤ sampleZeroState.max_shutter_ := by
    norm_num [sampleZeroState, sampleState]
  have h := C19_zero_is_absorbing sampleZeroState (some 100) sampleZeroState _ hr
  exact ⟨hr, ⟨a, h.1 a⟩, ⟨b, h.2.1 b⟩, ⟨c, h.2.2.1 c⟩, ⟨d, h.2.2.2 d⟩⟩

/-! ## Non-empty sampling -/

theorem loopIndices_ne_nil (stop step : ℤ) (fuel : ℕ) (i : ℤ) (hi : i < stop)
    (hf : 1 ≤ fuel) : loopIndices stop step fuel i ≠ [] := by
  cases fuel with
  | zero => omega
  | succ n => simp [loopIndices, hi]

theorem sampledPixels_ne_nil (roi : Rect) (rate : ℕ) (hW : 1 ≤ roi.width)
    (hH : 1 ≤ roi.height) : sampledPixels roi rate ≠ [] := by
  have hr : sampledRows roi rate ≠ [] := by
    unfold sampledRows
    exact loopIndices_ne_nil _ _ _ _ (by omega) (by omega)
  have hc : sampledOffsets roi rate ≠ [] := by
    unfold sampledOffsets
    exact loopIndices_ne_nil _ _ _ _ (by omega) (by omega)
  have hlen := sampledPixels_length roi rate
  have h1 := List.length_pos.mpr hr
  have h2 := List.length_pos.mpr hc
  have h3 : 0 < (sampledPixels roi rate).length := by
    rw [hlen]
    exact Nat.mul_pos h1 h2
  exact List.length_pos.mp h3

theorem histogram_sum_pos (img : Image) (roi : Rect) (rate : ℕ)
    (hne : sampledPixels roi rate ≠ []) : 1 ≤ (histogram img roi rate).sum := by
  rw [(histogram_facts img roi rate).2.1]
  have := List.length_pos.mpr hne
  omega

theorem msvReduce_isSome (hist : List ℤ) (h : 1 ≤ hist.sum) :
    (msvLoop hist 0 (0, 0)).2 ≠ 0 ∧ ∃ v, msvReduce hist = some v := by
  have hq : (0 : ℚ) < ((hist.sum : ℤ) : ℚ) := by
    have : 0 < hist.sum := by omega
    exact_mod_cast this
  constructor
  · rw [msvLoop_eq]
    simp only [zero_add]
    exact ne_of_gt hq
  · rw [msvReduce_eq, if_neg (ne_of_gt hq)]
    exact ⟨_, rfl⟩

theorem configCallback_roi_pos (s : CameraAutoBalance)
    (config : camera_auto_balance_paramsConfig) :
    1 ≤ (s.configCallback config).roi_.width ∧ 1 ≤ (s.configCallback config).roi_.height := by
  unfold CameraAutoBalance.configCallback
  dsimp only
  constructor <;> split_ifs <;> omega

theorem tmod_eq_zero_iff (a b : ℤ) : Int.tmod a b = 0 ↔ a % b = 0 :=
  ⟨fun h => Int.emod_eq_zero_of_dvd (Int.dvd_of_tmod_eq_zero h),
    fun h => Int.tmod_eq_zero_of_dvd (Int.dvd_of_emod_eq_zero h)⟩

theorem controlStep_frame_counter (s : CameraAutoBalance) (msv : Option ℚ) :
    (s.controlStep msv).frame_counter_ = s.frame_counter_ := by
  unfold CameraAutoBalance.controlStep
  cases msv with
  | none => rfl
  | some m => dsimp only; split_ifs <;> rfl

theorem autoExposureControl_frame_counter (s : CameraAutoBalance) (img : Image) :
    (s.autoExposureControl img).frame_counter_ = s.frame_counter_ := by
  unfold CameraAutoBalance.autoExposureControl
  dsimp only
  rw [controlStep_frame_counter]
  rfl

theorem imageCallback_gatedOut (s : CameraAutoBalance) (msg : Option Image)
    (h : Int.tmod s.frame_counter_ s.calibration_step_ ≠ 0) :
    s.imageCallback msg = { s with frame_counter_ := s.frame_counter_ + 1 } := by
  unfold CameraAutoBalance.imageCallback
  rw [if_neg h]

theorem imageCallback_decodeFailed (s : CameraAutoBalance)
    (h : Int.tmod s.frame_counter_ s.calibration_step_ = 0) :
    s.imageCallback none = s := by
  unfold CameraAutoBalance.imageCallback
  rw [if_pos h]

theorem imageCallback_evaluated (s : CameraAutoBalance) (img : Image)
    (h : Int.tmod s.frame_counter_ s.calibration_step_ = 0) :
    s.imageCallback (some img) =
      { s.autoExposureControl img with frame_counter_ := s.frame_counter_ + 1 } := by
  unfold CameraAutoBalance.imageCallback
  rw [if_pos h]
  dsimp only
  rw [autoExposureControl_frame_counter]

theorem imageCallback_counter_succ (s : CameraAutoBalance) (msg : Option Image)
    (h : Int.tmod s.frame_counter_ s.calibration_step_ ≠ 0 ∨ ∃ img, msg = some img) :
    (s.imageCallback msg).frame_counter_ = s.frame_counter_ + 1 := by
  by_cases hg : Int.tmod s.frame_counter_ s.calibration_step_ = 0
  · rcases h with h | ⟨img, rfl⟩
    · exact absurd hg h
    · rw [imageCallback_evaluated s img hg]
  · rw [imageCallback_gatedOut s msg hg]

/-- C11, evaluated where it fails: on the sample state (frame counter 0,
calibration step 3, gate open) a frame that fails to decode leaves the frame
counter at 0 instead of 1, while a frame that decodes brings it to 1 and a
gated-out call (counter 1) brings it to 2. -/
theorem C11_decode_failure_skips_increment :
    sampleState.frameOutcome none = FrameOutcome.decodeFailed ∧
    (sampleState.imageCallback none).frame_counter_ = 0 ∧
    (sampleState.imageCallback none).frame_counter_ ≠ sampleState.frame_counter_ + 1 ∧
    (sampleState.imageCallback (some (uniformImage 100 100 0))).frame_counter_ = 1 ∧
    (sampleGatedOut.imageCallback none).frame_counter_ = 2 := by
  have hg : Int.tmod sampleState.frame_counter_ sampleState.calibration_step_ = 0 := by
    decide
  have hc : Int.tmod sampleGatedOut.frame_counter_ sampleGatedOut.calibration_step_ ≠ 0 := by
    decide
  refine ⟨?_, ?_, ?_, ?_, ?_⟩
  · unfold CameraAutoBalance.frameOutcome
    rw [if_pos hg]
  · rw [imageCallback_decodeFailed sampleState hg]
    rfl
  · rw [imageCallback_decodeFailed sampleState hg]
    decide
  · rw [imageCallback_evaluated sampleState _ hg]
    rfl
  · rw [imageCallback_gatedOut sampleGatedOut none hc]
    rfl

theorem frameOutcome_evaluated_iff (s : CameraAutoBalance) (msg : Option Image) :
    s.frameOutcome msg = FrameOutcome.evaluated ↔
      s.frame_counter_ % s.calibration_step_ = 0 ∧ ∃ img, msg = some img := by
  unfold CameraAutoBalance.frameOutcome
  rw [← tmod_eq_zero_iff]
  by_cases hg : Int.tmod s.frame_counter_ s.calibration_step_ = 0
  · rw [if_pos hg]
    cases msg with
    | none => simp
    | some img => simp [hg]
  · rw [if_neg hg]
    simp [hg]

/-- C12 as stated fails: on the sample state the frame counter 0 is a multiple
of the calibration step 3, yet for a frame that fails to decode the pipeline
does not run: the call returns the state as it was, the histogram still the
empty start vector. -/
theorem C12_counterexample :
    1 ≤ sampleState.calibration_step_ ∧
    sampleState.frame_counter_ % sampleState.calibration_step_ = 0 ∧
    sampleState.frameOutcome none ≠ FrameOutcome.evaluated ∧
    sampleState.imageCallback none = sampleState ∧
    (sampleState.imageCallback none).hist_ = [] := by
  have hg : Int.tmod sampleState.frame_counter_ sampleState.calibration_step_ = 0 := by
    decide
  refine ⟨by decide, by decide, ?_, imageCallback_decodeFailed sampleState hg, ?_⟩
  · unfold CameraAutoBalance.frameOutcome
    rw [if_pos hg]
    decide
  · rw [imageCallback_decodeFailed sampleState hg]
    rfl

/-- C12, amended: for every call of `imageCallback` with calibrationStep ≥ 1,
the control pipeline runs if and only if frameCounter mod calibrationStep = 0
and the frame decodes, and the call then leaves the state of
`autoExposureControl` on that frame; when frameCounter mod calibrationStep ≠ 0,
or the frame does not decode, the shutter, the gain, the last error, the
histogram and the actuator are unchanged by the call. -/
theorem C12_frame_gate (s : CameraAutoBalance) (msg : Option Image)
    (_hstep : 1 ≤ s.calibration_step_) :
    (s.frameOutcome msg = FrameOutcome.evaluated ↔
      s.frame_counter_ % s.calibration_step_ = 0 ∧ ∃ img, msg = some img) ∧
    (∀ img, s.frame_counter_ % s.calibration_step_ = 0 → msg = some img →
      s.imageCallback msg =
        { s.autoExposureControl img with frame_counter_ := s.frame_counter_ + 1 }) ∧
    (s.frame_counter_ % s.calibration_step_ ≠ 0 ∨ msg = none →
      (s.imageCallback msg).u_shutter_ = s.u_shutter_ ∧
      (s.imageCallback msg).u_gain_ = s.u_gain_ ∧
      (s.imageCallback msg).msv_error_ = s.msv_error_ ∧
      (s.imageCallback msg).hist_ = s.hist_ ∧
      (s.imageCallback msg).cam_adjuster_ = s.cam_adjuster_) := by
  refine ⟨frameOutcome_evaluated_iff s msg, ?_, ?_⟩
  · intro img hg hm
    rw [hm]
    exact imageCallback_evaluated s img ((tmod_eq_zero_iff _ _).mpr hg)
  · intro h
    by_cases hg : Int.tmod s.frame_counter_ s.calibration_step_ = 0
    · rcases h with h | h
      · exact absurd ((tmod_eq_zero_iff _ _).mp hg) h
      · rw [h, imageCallback_decodeFailed s hg]
        exact ⟨rfl, rfl, rfl, rfl, rfl⟩
    · rw [imageCallback_gatedOut s msg hg]
      exact ⟨rfl, rfl, rfl, rfl, rfl⟩

/-- C12 on the sample state (calibration step 3): with frame counter 0 and a
frame that decodes the pipeline runs; with frame counter 1 the call leaves
shutter, gain, last error, histogram and actuator as they were. -/
theorem C12_frame_gate_witness :
    (1 ≤ sampleState.calibration_step_ ∧
      sampleState.frameOutcome (some (uniformImage 100 100 0)) = FrameOutcome.evaluated) ∧
    (1 ≤ sampleGatedOut.calibration_step_ ∧
      sampleGatedOut.frame_counter_ % sampleGatedOut.calibration_step_ ≠ 0 ∧
      (sampleGatedOut.imageCallback (some (uniformImage 100 100 0))).u_shutter_ =
        sampleGatedOut.u_shutter_ ∧
      (sampleGatedOut.imageCallback (some (uniformImage 100 100 0))).u_gain_ =
        sampleGatedOut.u_gain_ ∧
      (sampleGatedOut.imageCallback (some (uniformImage 100 100 0))).msv_error_ =
        sampleGatedOut.msv_error_ ∧
      (sampleGatedOut.imageCallback (some (uniformImage 100 100 0))).hist_ =
        sampleGatedOut.hist_ ∧
      (sampleGatedOut.imageCallback (some (uniformImage 100 100 0))).cam_adjuster_ =
        sampleGatedOut.cam_adjuster_) := by
  have h1 : 1 ≤ sampleState.calibration_step_ := by decide
  have h2 : 1 ≤ sampleGatedOut.calibration_step_ := by decide
  have h3 : sampleGatedOut.frame_counter_ % sampleGatedOut.calibration_step_ ≠ 0 := by
    decide
  exact ⟨⟨h1, (C12_frame_gate sampleState (some (uniformImage 100 100 0)) h1).1.mpr
      ⟨by decide, _, rfl⟩⟩,
    ⟨h2, h3, (C12_frame_gate sampleGatedOut (some (uniformImage 100 100 0)) h2).2.2
      (Or.inl h3)⟩⟩

/-! ## Evaluation cycles on uniform frames -/

theorem controlStep_config (s : CameraAutoBalance) (msv : Option ℚ) :
    (s.controlStep msv).roi_ = s.roi_ ∧
      (s.controlStep msv).msv_reference_ = s.msv_reference_ ∧
      (s.controlStep msv).k_shutter_ = s.k_shutter_ ∧
      (s.controlStep msv).k_gain_ = s.k_gain_ := by
  unfold CameraAutoBalance.controlStep
  cases msv with
  | none => simp
  | some m => dsimp only; split_ifs <;> simp

theorem autoExposureControl_eq (s : CameraAutoBalance) (img : Image) :
    s.autoExposureControl img =
      ({ s with hist_ := histogram img s.roi_ 5 } : CameraAutoBalance).controlStep
        (msvReduce (histogram img s.roi_ 5)) := rfl

theorem autoExposureControl_config (s : CameraAutoBalance) (img : Image) :
    ((s.autoExposureControl img).roi_ = s.roi_ ∧
      (s.autoExposureControl img).msv_reference_ = s.msv_reference_ ∧
      (s.autoExposureControl img).k_shutter_ = s.k_shutter_ ∧
      (s.autoExposureControl img).k_gain_ = s.k_gain_) ∧
    ((s.autoExposureControl img).min_shutter_ = s.min_shutter_ ∧
      (s.autoExposureControl img).max_shutter_ = s.max_shutter_ ∧
      (s.autoExposureControl img).min_gain_ = s.min_gain_ ∧
      (s.autoExposureControl img).max_gain_ = s.max_gain_) := by
  rw [autoExposureControl_eq]
  exact ⟨controlStep_config _ _, controlStep_bounds _ _⟩

theorem msvReduce_uniformOn (img : Image) (roi : Rect) (v : Fin 256)
    (hne : sampledPixels roi 5 ≠ []) (hu : UniformOn img roi v) :
    msvReduce (histogram img roi 5) = some ((v.val : ℚ) + 1) := by
  have hl : ∀ p ∈ sampledPixels roi 5, bucketAt img p = (v.val : ℤ) := by
    intro p hp
    obtain ⟨h1, h2, h3⟩ := hu p hp
    unfold bucketAt
    rw [h1, h2, h3, luminance_gray]
  rw [msvReduce_uniform img roi 5 (v.val : ℤ) hne hl]
  norm_num

theorem autoExposureControl_uniform (s : CameraAutoBalance) (img : Image) (v : Fin 256)
    (hne : sampledPixels s.roi_ 5 ≠ []) (hu : UniformOn img s.roi_ v) :
    s.autoExposureControl img =
      ({ s with hist_ := histogram img s.roi_ 5 } : CameraAutoBalance).controlStep
        (some ((v.val : ℚ) + 1)) := by
  rw [autoExposureControl_eq, msvReduce_uniformOn img s.roi_ v hne hu]

theorem gain_ramp_step (g f lo hi : ℚ) (hg : 0 < g) (hf : 1 < f) (h1 : lo ≤ g) (h2 : g ≤ hi) :
    (g ≤ saturate (g * f) lo hi ∧ (g < hi → g < saturate (g * f) lo hi) ∧
      (g = hi → saturate (g * f) lo hi = hi)) ∧
    (0 < saturate (g * f) lo hi ∧ lo ≤ saturate (g * f) lo hi ∧
      saturate (g * f) lo hi ≤ hi) := by
  have hgf : g < g * f := by nlinarith
  have hlo : lo ≤ hi := le_trans h1 h2
  have hnot : ¬ g * f < lo := by linarith
  unfold saturate
  rw [if_neg hnot]
  by_cases hx : g * f > hi
  · rw [if_pos hx]
    exact ⟨⟨h2, fun h => h, fun _ => rfl⟩, by linarith, hlo, le_rfl⟩
  · rw [if_neg hx]
    refine ⟨⟨hgf.le, fun _ => hgf, fun h => ?_⟩, by linarith, by linarith, by linarith⟩
    linarith

theorem black_cycle (s : CameraAutoBalance) (img : Image)
    (hne : sampledPixels s.roi_ 5 ≠ []) (hu : UniformOn img s.roi_ 0)
    (hsh : s.u_shutter_ = s.max_shutter_)
    (href : s.msv_reference_ - 1 > msv_error_tolerance_) :
    (s.autoExposureControl img).u_gain_ =
      saturate (s.u_gain_ * (1 + s.k_gain_ * (s.msv_reference_ - 1))) s.min_gain_ s.max_gain_ ∧
    (s.autoExposureControl img).u_shutter_ = s.u_shutter_ := by
  have hw : |s.max_shutter_ - s.u_shutter_| < epsilon_shutter_ := by
    rw [hsh, sub_self, abs_zero]
    exact epsilon_shutter_pos
  have e : (((0 : Fin 256).val : ℚ) + 1) = 1 := by norm_num
  rw [autoExposureControl_uniform s img 0 hne hu, e]
  rw [controlStep_dark_gain ({ s with hist_ := histogram img s.roi_ 5 } : CameraAutoBalance)
    1 href hw]
  exact ⟨rfl, rfl⟩

theorem autoExposureControl_sameSetup (s0 s : CameraAutoBalance) (img : Image)
    (h : CameraAutoBalance.SameSetup s0 s) :
    CameraAutoBalance.SameSetup s0 (s.autoExposureControl img) := by
  obtain ⟨⟨a1, a2, a3, a4⟩, b1, b2, b3, b4⟩ := h
  obtain ⟨⟨c1, c2, c3, c4⟩, d1, d2, d3, d4⟩ := autoExposureControl_config s img
  exact ⟨⟨c1.trans a1, c2.trans a2, c3.trans a3, c4.trans a4⟩,
    d1.trans b1, d2.trans b2, d3.trans b3, d4.trans b4⟩

theorem black_run_invariant (s : CameraAutoBalance) (frames : ℕ → Image) (N : ℕ)
    (hne : sampledPixels s.roi_ 5 ≠ [])
    (hblack : ∀ n < N, UniformOn (frames n) s.roi_ 0)
    (hsh : s.u_shutter_ = s.max_shutter_)
    (href : s.msv_reference_ - 1 > msv_error_tolerance_) (hk : 0 < s.k_gain_)
    (hpos : 0 < s.u_gain_) (hin : s.min_gain_ ≤ s.u_gain_ ∧ s.u_gain_ ≤ s.max_gain_) :
    ∀ n ≤ N, CameraAutoBalance.SameSetup s (evaluateFrames s frames n) ∧
      (evaluateFrames s frames n).u_shutter_ = s.u_shutter_ ∧
      0 < (evaluateFrames s frames n).u_gain_ ∧
      s.min_gain_ ≤ (evaluateFrames s frames n).u_gain_ ∧
      (evaluateFrames s frames n).u_gain_ ≤ s.max_gain_ := by
  intro n
  induction n with
  | zero =>
    intro _
    exact ⟨⟨⟨rfl, rfl, rfl, rfl⟩, rfl, rfl, rfl, rfl⟩, rfl, hpos, hin.1, hin.2⟩
  | succ n ih =>
    intro hn
    obtain ⟨hset, hshut, hg0, hg1, hg2⟩ := ih (by omega)
    have hset' := hset
    obtain ⟨⟨a1, a2, a3, a4⟩, b1, b2, b3, b4⟩ := hset'
    have hcyc := black_cycle (evaluateFrames s frames n) (frames n)
      (by rw [a1]; exact hne) (by rw [a1]; exact hblack n (by omega))
      (by rw [hshut, b2]; exact hsh) (by rw [a2]; exact href)
    have hf : 1 < 1 + s.k_gain_ * (s.msv_reference_ - 1) := by
      have : 0 < s.msv_reference_ - 1 := by linarith [tolerance_pos]
      nlinarith [mul_pos hk this]
    have hr := gain_ramp_step (evaluateFrames s frames n).u_gain_ _ s.min_gain_ s.max_gain_
      hg0 hf hg1 hg2
    rw [a2, a4, b3, b4] at hcyc
    show CameraAutoBalance.SameSetup s
        ((evaluateFrames s frames n).autoExposureControl (frames n)) ∧
      ((evaluateFrames s frames n).autoExposureControl (frames n)).u_shutter_ = s.u_shutter_ ∧
      0 < ((evaluateFrames s frames n).autoExposureControl (frames n)).u_gain_ ∧
      s.min_gain_ ≤ ((evaluateFrames s frames n).autoExposureControl (frames n)).u_gain_ ∧
      ((evaluateFrames s frames n).autoExposureControl (frames n)).u_gain_ ≤ s.max_gain_
    rw [hcyc.1, hcyc.2]
    exact ⟨autoExposureControl_sameSetup s _ (frames n) hset, hshut, hr.2.1, hr.2.2.1,
      hr.2.2.2⟩

theorem black_run_step (s : CameraAutoBalance) (frames : ℕ → Image) (N : ℕ)
    (hne : sampledPixels s.roi_ 5 ≠ [])
    (hblack : ∀ n < N, UniformOn (frames n) s.roi_ 0)
    (hsh : s.u_shutter_ = s.max_shutter_)
    (href : s.msv_reference_ - 1 > msv_error_tolerance_) (hk : 0 < s.k_gain_)
    (hpos : 0 < s.u_gain_) (hin : s.min_gain_ ≤ s.u_gain_ ∧ s.u_gain_ ≤ s.max_gain_) :
    ∀ n < N,
      (evaluateFrames s frames n).u_gain_ ≤ (evaluateFrames s frames (n + 1)).u_gain_ ∧
      ((evaluateFrames s frames n).u_gain_ < s.max_gain_ →
        (evaluateFrames s frames n).u_gain_ < (evaluateFrames s frames (n + 1)).u_gain_) ∧
      ((evaluateFrames s frames n).u_gain_ = s.max_gain_ →
        (evaluateFrames s frames (n + 1)).u_gain_ = s.max_gain_) ∧
      (evaluateFrames s frames (n + 1)).u_shutter_ = s.u_shutter_ := by
  intro n hn
  obtain ⟨hset, hshut, hg0, hg1, hg2⟩ :=
    black_run_invariant s frames N hne hblack hsh href hk hpos hin n (by omega)
  obtain ⟨⟨a1, a2, a3, a4⟩, b1, b2, b3, b4⟩ := hset
  have hcyc := black_cycle (evaluateFrames s frames n) (frames n)
    (by rw [a1]; exact hne) (by rw [a1]; exact hblack n hn)
    (by rw [hshut, b2]; exact hsh) (by rw [a2]; exact href)
  have hf : 1 < 1 + s.k_gain_ * (s.msv_reference_ - 1) := by
    have : 0 < s.msv_reference_ - 1 := by linarith [tolerance_pos]
    nlinarith [mul_pos hk this]
  have hr := gain_ramp_step (evaluateFrames s frames n).u_gain_ _ s.min_gain_ s.max_gain_
    hg0 hf hg1 hg2
  rw [a2, a4, b3, b4] at hcyc
  show (evaluateFrames s frames n).u_gain_ ≤
      ((evaluateFrames s frames n).autoExposureControl (frames n)).u_gain_ ∧
    ((evaluateFrames s frames n).u_gain_ < s.max_gain_ →
      (evaluateFrames s frames n).u_gain_ <
        ((evaluateFrames s frames n).autoExposureControl (frames n)).u_gain_) ∧
    ((evaluateFrames s frames n).u_gain_ = s.max_gain_ →
      ((evaluateFrames s frames n).autoExposureControl (frames n)).u_gain_ = s.max_gain_) ∧
    ((evaluateFrames s frames n).autoExposureControl (frames n)).u_shutter_ = s.u_shutter_
  rw [hcyc.1, hcyc.2]
  exact ⟨hr.1.1, hr.1.2.1, hr.1.2.2, hshut⟩

theorem evaluateFrames_gain_zero (s : CameraAutoBalance) (frames : ℕ → Image)
    (h1 : s.min_gain_ ≤ 0) (h2 : 0 ≤ s.max_gain_) (h0 : s.u_gain_ = 0) :
    ∀ n, ((evaluateFrames s frames n).min_gain_ ≤ 0 ∧
      0 ≤ (evaluateFrames s frames n).max_gain_) ∧ (evaluateFrames s frames n).u_gain_ = 0 := by
  intro n
  induction n with
  | zero => exact ⟨⟨h1, h2⟩, h0⟩
  | succ n ih =>
    obtain ⟨⟨b1, b2⟩, hz⟩ := ih
    obtain ⟨_, _, _, c3, c4⟩ := autoExposureControl_config (evaluateFrames s frames n) (frames n)
    show ((((evaluateFrames s frames n).autoExposureControl (frames n)).min_gain_ ≤ 0 ∧
      0 ≤ ((evaluateFrames s frames n).autoExposureControl (frames n)).max_gain_) ∧
      ((evaluateFrames s frames n).autoExposureControl (frames n)).u_gain_ = 0)
    refine ⟨⟨by rw [c3]; exact b1, by rw [c4]; exact b2⟩, ?_⟩
    rw [autoExposureControl_eq]
    exact controlStep_gain_zero _ _ b1 b2 hz

/-- C13 as stated fails: on the sample state with the shutter at its maximum
10 and the gain at its minimum 0, reference 128 and k_g = 1/100, every sampled
pixel black, the gain is still 0 after one cycle and after ten cycles, although
0 is below maxGain = 20. -/
theorem C13_counterexample :
    (sampledPixels sampleZeroGainAtMaxShutter.roi_ 5 ≠ [] ∧
      (∀ n < 10, UniformOn (blackFrames n) sampleZeroGainAtMaxShutter.roi_ 0) ∧
      sampleZeroGainAtMaxShutter.u_shutter_ = sampleZeroGainAtMaxShutter.max_shutter_ ∧
      sampleZeroGainAtMaxShutter.msv_reference_ - 1 > msv_error_tolerance_ ∧
      0 < sampleZeroGainAtMaxShutter.k_gain_) ∧
    (evaluateFrames sampleZeroGainAtMaxShutter blackFrames 0).u_gain_ <
      sampleZeroGainAtMaxShutter.max_gain_ ∧
    ¬ ((evaluateFrames sampleZeroGainAtMaxShutter blackFrames 0).u_gain_ <
      (evaluateFrames sampleZeroGainAtMaxShutter blackFrames 1).u_gain_) ∧
    (evaluateFrames sampleZeroGainAtMaxShutter blackFrames 10).u_gain_ = 0 ∧
    (evaluateFrames sampleZeroGainAtMaxShutter blackFrames 10).u_gain_ ≠
      sampleZeroGainAtMaxShutter.max_gain_ := by
  have h1 : sampleZeroGainAtMaxShutter.min_gain_ ≤ 0 := by
    norm_num [sampleZeroGainAtMaxShutter, sampleState]
  have h2 : 0 ≤ sampleZeroGainAtMaxShutter.max_gain_ := by
    norm_num [sampleZeroGainAtMaxShutter, sampleState]
  have h0 : sampleZeroGainAtMaxShutter.u_gain_ = 0 := rfl
  have hz := evaluateFrames_gain_zero sampleZeroGainAtMaxShutter blackFrames h1 h2 h0
  have hmax : sampleZeroGainAtMaxShutter.max_gain_ = 20 := rfl
  refine ⟨⟨by decide, fun _ _ _ _ => ⟨rfl, rfl, rfl⟩, ?_, ?_, ?_⟩, ?_, ?_, (hz 10).2, ?_⟩
  · norm_num [sampleZeroGainAtMaxShutter, sampleState]
  · norm_num [sampleZeroGainAtMaxShutter, sampleState, msv_error_tolerance_]
  · norm_num [sampleZeroGainAtMaxShutter, sampleState]
  · rw [(hz 0).2, hmax]; norm_num
  · rw [(hz 0).2, (hz 1).2]; norm_num
  · rw [(hz 10).2, hmax]; norm_num

/-- C13, amended: with every sampled ROI pixel black (MSV = 1), shutter at
maxShutter, reference − 1 > tolerance, k_g > 0 and a gain that is positive and
inside [minGain, maxGain], in each of ten consecutive evaluation cycles the gain
does not decrease, increases strictly while it is below maxGain and stays at
maxGain once it equals it; the shutter never changes. -/
theorem C13_black_image_gain_ramp (s : CameraAutoBalance) (frames : ℕ → Image)
    (hne : sampledPixels s.roi_ 5 ≠ [])
    (hblack : ∀ n < 10, UniformOn (frames n) s.roi_ 0)
    (hsh : s.u_shutter_ = s.max_shutter_)
    (href : s.msv_reference_ - 1 > msv_error_tolerance_) (hk : 0 < s.k_gain_)
    (hpos : 0 < s.u_gain_) (hin : s.min_gain_ ≤ s.u_gain_ ∧ s.u_gain_ ≤ s.max_gain_) :
    ∀ n < 10,
      (evaluateFrames s frames n).u_gain_ ≤ (evaluateFrames s frames (n + 1)).u_gain_ ∧
      ((evaluateFrames s frames n).u_gain_ < s.max_gain_ →
        (evaluateFrames s frames n).u_gain_ < (evaluateFrames s frames (n + 1)).u_gain_) ∧
      ((evaluateFrames s frames n).u_gain_ = s.max_gain_ →
        (evaluateFrames s frames (n + 1)).u_gain_ = s.max_gain_) ∧
      (evaluateFrames s frames (n + 1)).u_shutter_ = s.u_shutter_ :=
  black_run_step s frames 10 hne hblack hsh href hk hpos hin

/-- C13 amended, on the sample state with the shutter at its maximum 10 and the
gain 8 in [0, 20] (reference 128, k_g = 1/100) and ten black frames. -/
theorem C13_black_image_gain_ramp_witness :
    (sampledPixels sampleAtMaxShutter.roi_ 5 ≠ [] ∧
      (∀ n < 10, UniformOn (blackFrames n) sampleAtMaxShutter.roi_ 0) ∧
      sampleAtMaxShutter.u_shutter_ = sampleAtMaxShutter.max_shutter_ ∧
      sampleAtMaxShutter.msv_reference_ - 1 > msv_error_tolerance_ ∧
      0 < sampleAtMaxShutter.k_gain_ ∧ 0 < sampleAtMaxShutter.u_gain_ ∧
      (sampleAtMaxShutter.min_gain_ ≤ sampleAtMaxShutter.u_gain_ ∧
        sampleAtMaxShutter.u_gain_ ≤ sampleAtMaxShutter.max_gain_)) ∧
    ∀ n < 10,
      (evaluateFrames sampleAtMaxShutter blackFrames n).u_gain_ ≤
        (evaluateFrames sampleAtMaxShutter blackFrames (n + 1)).u_gain_ ∧
      ((evaluateFrames sampleAtMaxShutter blackFrames n).u_gain_ <
          sampleAtMaxShutter.max_gain_ →
        (evaluateFrames sampleAtMaxShutter blackFrames n).u_gain_ <
          (evaluateFrames sampleAtMaxShutter blackFrames (n + 1)).u_gain_) ∧
      ((evaluateFrames sampleAtMaxShutter blackFrames n).u_gain_ =
          sampleAtMaxShutter.max_gain_ →
        (evaluateFrames sampleAtMaxShutter blackFrames (n + 1)).u_gain_ =
          sampleAtMaxShutter.max_gain_) ∧
      (evaluateFrames sampleAtMaxShutter blackFrames (n + 1)).u_shutter_ =
        sampleAtMaxShutter.u_shutter_ := by
  have a1 : sampledPixels sampleAtMaxShutter.roi_ 5 ≠ [] := by decide
  have a2 : ∀ n < 10, UniformOn (blackFrames n) sampleAtMaxShutter.roi_ 0 :=
    fun _ _ _ _ => ⟨rfl, rfl, rfl⟩
  have a3 : sampleAtMaxShutter.u_shutter_ = sampleAtMaxShutter.max_shutter_ := by
    norm_num [sampleAtMaxShutter, sampleState]
  have a4 : sampleAtMaxShutter.msv_reference_ - 1 > msv_error_tolerance_ := by
    norm_num [sampleAtMaxShutter, sampleState, msv_error_tolerance_]
  have a5 : 0 < sampleAtMaxShutter.k_gain_ := by
    norm_num [sampleAtMaxShutter, sampleState]
  have a6 : 0 < sampleAtMaxShutter.u_gain_ := by
    norm_num [sampleAtMaxShutter, sampleState]
  have a7 : sampleAtMaxShutter.min_gain_ ≤ sampleAtMaxShutter.u_gain_ ∧
      sampleAtMaxShutter.u_gain_ ≤ sampleAtMaxShutter.max_gain_ := by
    norm_num [sampleAtMaxShutter, sampleState]
  exact ⟨⟨a1, a2, a3, a4, a5, a6, a7⟩,
    C13_black_image_gain_ramp sampleAtMaxShutter blackFrames a1 a2 a3 a4 a5 a6 a7⟩

theorem gray_cycle (s : CameraAutoBalance) (img : Image)
    (hne : sampledPixels s.roi_ 5 ≠ []) (hu : UniformOn img s.roi_ 128)
    (href : s.msv_reference_ = 128) :
    (s.MSV img).2 = some 129 ∧
    (s.autoExposureControl img).u_shutter_ = s.u_shutter_ ∧
    (s.autoExposureControl img).u_gain_ = s.u_gain_ ∧
    (s.autoExposureControl img).cam_adjuster_ = s.cam_adjuster_ := by
  have e : (((128 : Fin 256).val : ℚ) + 1) = 129 := by
    have hv : (128 : Fin 256).val = 128 := rfl
    rw [hv]
    norm_num
  have hm : msvReduce (histogram img s.roi_ 5) = some 129 := by
    rw [msvReduce_uniformOn img s.roi_ 128 hne hu, e]
  have hd : |({ s with hist_ := histogram img s.roi_ 5 } : CameraAutoBalance).msv_reference_
      - 129| ≤ msv_error_tolerance_ := by
    show |s.msv_reference_ - 129| ≤ msv_error_tolerance_
    rw [href]
    norm_num [msv_error_tolerance_, abs_le]
  refine ⟨hm, ?_⟩
  rw [autoExposureControl_eq, hm, controlStep_deadband _ 129 hd]
  exact ⟨rfl, rfl, rfl⟩

theorem gray_run_invariant (s : CameraAutoBalance) (frames : ℕ → Image) (N : ℕ)
    (hne : sampledPixels s.roi_ 5 ≠ [])
    (hgray : ∀ n < N, UniformOn (frames n) s.roi_ 128)
    (href : s.msv_reference_ = 128) :
    ∀ n ≤ N, CameraAutoBalance.SameSetup s (evaluateFrames s frames n) ∧
      (evaluateFrames s frames n).u_shutter_ = s.u_shutter_ ∧
      (evaluateFrames s frames n).u_gain_ = s.u_gain_ ∧
      (evaluateFrames s frames n).cam_adjuster_ = s.cam_adjuster_ := by
  intro n
  induction n with
  | zero =>
    intro _
    exact ⟨⟨⟨rfl, rfl, rfl, rfl⟩, rfl, rfl, rfl, rfl⟩, rfl, rfl, rfl⟩
  | succ n ih =>
    intro hn
    obtain ⟨hset, h1, h2, h3⟩ := ih (by omega)
    have hset' := hset
    obtain ⟨⟨a1, a2, _, _⟩, _⟩ := hset'
    obtain ⟨_, c1, c2, c3⟩ := gray_cycle (evaluateFrames s frames n) (frames n)
      (by rw [a1]; exact hne) (by rw [a1]; exact hgray n (by omega)) (a2.trans href)
    exact ⟨autoExposureControl_sameSetup s _ (frames n) hset, c1.trans h1, c2.trans h2,
      c3.trans h3⟩

theorem msvReduce_empty (hist : List ℤ) (h : hist.sum = 0) : msvReduce hist = none := by
  rw [msvReduce_eq, h]
  simp

theorem controlStep_nan (s : CameraAutoBalance) :
    s.controlStep none = { s with msv_error_ := none } := rfl

/-- C15 as stated fails: on the sample state with an empty region (width and
height 0) and last error 5, the histogram is empty, `MSV` returns the NaN of
0.0/0.0 as an ordinary value (`none`), and the control step is not skipped: it
runs and overwrites the last error with that NaN. -/
theorem C15_counterexample :
    (histogram (uniformImage 100 100 0) sampleEmptyRoi.roi_ 5).sum = 0 ∧
    (sampleEmptyRoi.MSV (uniformImage 100 100 0)).2 = none ∧
    sampleEmptyRoi.msv_error_ = some 5 ∧
    (sampleEmptyRoi.autoExposureControl (uniformImage 100 100 0)).msv_error_ = none ∧
    (sampleEmptyRoi.autoExposureControl (uniformImage 100 100 0)).msv_error_ ≠
      sampleEmptyRoi.msv_error_ := by
  have hs : (histogram (uniformImage 100 100 0) sampleEmptyRoi.roi_ 5).sum = 0 := by
    rw [(histogram_facts _ _ _).2.1]
    decide
  have hm : msvReduce (histogram (uniformImage 100 100 0) sampleEmptyRoi.roi_ 5) = none :=
    msvReduce_empty _ hs
  have ha : (sampleEmptyRoi.autoExposureControl (uniformImage 100 100 0)).msv_error_
      = none := by
    rw [autoExposureControl_eq, hm]
    rfl
  refine ⟨hs, hm, rfl, ha, ?_⟩
  rw [ha]
  exact fun h => Option.noConfusion h

/-- C15, amended: if the histogram is entirely empty (sum of counts = 0), `MSV`
reports no error: it returns the NaN of 0.0/0.0, `autoExposureControl` stores
that NaN as the last error, and since both comparisons with it are false the
shutter and the gain are unchanged and no actuator value is pushed. -/
theorem C15_empty_histogram_is_nan (s : CameraAutoBalance) (img : Image)
    (hempty : (histogram img s.roi_ 5).sum = 0) :
    (s.MSV img).2 = none ∧
    (s.autoExposureControl img).msv_error_ = none ∧
    (s.autoExposureControl img).u_shutter_ = s.u_shutter_ ∧
    (s.autoExposureControl img).u_gain_ = s.u_gain_ ∧
    (s.autoExposureControl img).cam_adjuster_ = s.cam_adjuster_ := by
  have hm : msvReduce (histogram img s.roi_ 5) = none := msvReduce_empty _ hempty
  refine ⟨hm, ?_⟩
  rw [autoExposureControl_eq, hm, controlStep_nan]
  exact ⟨rfl, rfl, rfl, rfl⟩

/-- C15 amended, on the sample state with an empty region. -/
theorem C15_empty_histogram_is_nan_witness :
    (histogram (uniformImage 100 100 0) sampleEmptyRoi.roi_ 5).sum = 0 ∧
    (sampleEmptyRoi.MSV (uniformImage 100 100 0)).2 = none ∧
    (sampleEmptyRoi.autoExposureControl (uniformImage 100 100 0)).msv_error_ = none ∧
    (sampleEmptyRoi.autoExposureControl (uniformImage 100 100 0)).u_shutter_ =
      sampleEmptyRoi.u_shutter_ ∧
    (sampleEmptyRoi.autoExposureControl (uniformImage 100 100 0)).u_gain_ =
      sampleEmptyRoi.u_gain_ ∧
    (sampleEmptyRoi.autoExposureControl (uniformImage 100 100 0)).cam_adjuster_ =
      sampleEmptyRoi.cam_adjuster_ := by
  have hs : (histogram (uniformImage 100 100 0) sampleEmptyRoi.roi_ 5).sum = 0 := by
    rw [(histogram_facts _ _ _).2.1]
    decide
  exact ⟨hs, C15_empty_histogram_is_nan sampleEmptyRoi (uniformImage 100 100 0) hs⟩

/-! ## Positions read by `histogram` -/

theorem loopIndices_mem (stop step : ℤ) (hstep : 0 ≤ step) :
    ∀ (fuel : ℕ) (i x : ℤ), x ∈ loopIndices stop step fuel i →
      i ≤ x ∧ x < stop ∧ ∃ k : ℕ, x = i + (k : ℤ) * step := by
  intro fuel
  induction fuel with
  | zero =>
    intro i x hx
    simp [loopIndices] at hx
  | succ n ih =>
    intro i x hx
    by_cases hi : i < stop
    · simp only [loopIndices, if_pos hi, List.mem_cons] at hx
      rcases hx with rfl | hx
      · exact ⟨le_rfl, hi, 0, by simp⟩
      · obtain ⟨h1, h2, k, hk⟩ := ih (i + step) x hx
        refine ⟨by omega, h2, k + 1, ?_⟩
        rw [hk]
        push_cast
        ring
    · simp [loopIndices, if_neg hi] at hx

theorem sampledPixels_mem (roi : Rect) (rate : ℕ) (p : ℤ × ℤ)
    (hp : p ∈ sampledPixels roi rate) :
    p.1 ∈ sampledRows roi rate ∧ p.2 ∈ sampledOffsets roi rate := by
  unfold sampledPixels at hp
  obtain ⟨i, hi, hq⟩ := List.mem_flatMap.mp hp
  obtain ⟨j, hj, rfl⟩ := List.mem_map.mp hq
  exact ⟨hi, hj⟩

theorem sampledPixels_inBuffer (img : Image) (roi : Rect) (rate : ℕ)
    (hin : roi.Inside img) : ∀ p ∈ sampledPixels roi rate, img.InBuffer p := by
  intro p hp
  obtain ⟨hx, hy, hw, hh⟩ := hin
  obtain ⟨hr, hc⟩ := sampledPixels_mem roi rate p hp
  unfold sampledRows at hr
  unfold sampledOffsets at hc
  obtain ⟨r1, r2, _⟩ := loopIndices_mem _ _ (Int.natCast_nonneg rate) _ _ _ hr
  obtain ⟨c1, c2, k, hk⟩ := loopIndices_mem _ _
    (by have := Int.natCast_nonneg rate; omega : (0 : ℤ) ≤ 3 * (rate : ℤ)) _ _ _ hc
  have hmul : p.2 = 3 * (roi.x + (k : ℤ) * (rate : ℤ)) := by
    rw [hk]
    ring
  generalize (k : ℤ) * (rate : ℤ) = t at hmul
  unfold Image.InBuffer
  refine ⟨⟨by omega, by omega⟩, by omega, ?_⟩
  omega

end autorally_core
